import Mathlib

/-!
HillelCpp, DZ_9: recursive filesystem scanner and filter layer.

A shallow embedding of `src/DZ_9/myLib/mylib.cpp`, `mylib.h`, of the function
`main` of `src/DZ_9/myApp/main.cpp`, and of the scan loop of `main` of
`src/DZ_7/DZ_7.cpp`, from which the library was factored out.

Conventions of the embedding

* `std::string` and `std::filesystem::path` values are lists of bytes
  (`List Nat`, one number per `char`).
* `std::uint64_t` values are natural numbers; every `++` and `+=` of the source
  is followed by an explicit reduction modulo `2^64` (`wrap64`).
* The filesystem is an input: the answers of the library queries the source
  makes (`fs::exists`, `fs::is_directory`, the iterator constructor, the
  entries the iterator yields, `is_regular_file(ec)`, `file_size(ec)`,
  `path().extension().string()`) are fields of `FsWorld` and `DirEntry`.
* The range-based `for` advances the iterator with `operator++`, which reports
  a failure by throwing `std::filesystem::filesystem_error`; the scan therefore
  returns `Except ScanFailure ScanResult`.
* What `printFileList` writes to `std::cout` is a list of lines, one per
  output statement executed (`OutputLine`); `std::size_t` is 64 bits wide.
-/

namespace DZ9

/-! ## Data model (`mylib.h`) -/

/-- Reduction of an arithmetic result to `std::uint64_t`, that is modulo `2^64`. -/
def wrap64 (n : Nat) : Nat := n % 2 ^ 64

/-- The `struct FileInfo` of `mylib.h`. -/
structure FileInfo where
  path : List Nat
  size : Nat
  extension : List Nat
deriving DecidableEq, Repr

/-- The `struct CategoryStats` of `mylib.h`. -/
structure CategoryStats where
  count : Nat
  bytes : Nat
deriving DecidableEq, Repr

/-- The `struct ScanResult` of `mylib.h`. -/
structure ScanResult where
  files : List FileInfo
  txt : CategoryStats
  images : CategoryStats
  exe : CategoryStats
  other : CategoryStats
  totalFiles : Nat
  totalBytes : Nat
  skippedEntries : Nat
  inputPathValid : Bool
deriving DecidableEq, Repr

/-- The default-constructed `ScanResult r;` (the member initialisers of `mylib.h`). -/
def ScanResult.default : ScanResult :=
  { files := [], txt := ⟨0, 0⟩, images := ⟨0, 0⟩, exe := ⟨0, 0⟩, other := ⟨0, 0⟩,
    totalFiles := 0, totalBytes := 0, skippedEntries := 0, inputPathValid := false }

/-! ## String constants -/

/-- The bytes of `".txt"`. -/
def extTxt : List Nat := [46, 116, 120, 116]

/-- The bytes of `".exe"`. -/
def extExe : List Nat := [46, 101, 120, 101]

/-- The bytes of `".jpg"`. -/
def extJpg : List Nat := [46, 106, 112, 103]

/-- The bytes of `".jpeg"`. -/
def extJpeg : List Nat := [46, 106, 112, 101, 103]

/-- The bytes of `".png"`. -/
def extPng : List Nat := [46, 112, 110, 103]

/-- The bytes of `".bmp"`. -/
def extBmp : List Nat := [46, 98, 109, 112]

/-- The bytes of `".gif"`. -/
def extGif : List Nat := [46, 103, 105, 102]

/-- The bytes of `".tiff"`. -/
def extTiff : List Nat := [46, 116, 105, 102, 102]

/-! ## Classification (`mylib.cpp`, lines 12-48) -/

/-- The library function `std::tolower` on one `unsigned char` in the "C" locale (the program never
calls `setlocale`): `'A'..'Z'` (65..90) go to `'a'..'z'`, every other byte is
returned unchanged. -/
def tolower (c : Nat) : Nat := if 65 ≤ c ∧ c ≤ 90 then c + 32 else c

/-- The function `normalizeExtension` (lines 12-15):
`std::ranges::transform(ext, ext.begin(), tolower)`. -/
def normalizeExtension (ext : List Nat) : List Nat := ext.map tolower

/-- The `static const std::unordered_set<std::string> exts` of `isImageExt`. -/
def imageExts : List (List Nat) := [extJpg, extJpeg, extPng, extBmp, extGif, extTiff]

/-- The function `isImageExt` (lines 17-22): `exts.contains(ext)`. -/
def isImageExt (ext : List Nat) : Bool := imageExts.contains ext

/-- The function `addToCategory(ScanResult& r, const FileInfo& f)` (lines 24-48). -/
def addToCategory (r : ScanResult) (f : FileInfo) : ScanResult :=
  let r1 := { r with totalFiles := wrap64 (r.totalFiles + 1),
                     totalBytes := wrap64 (r.totalBytes + f.size) }
  if f.extension = extTxt then
    { r1 with txt := ⟨wrap64 (r1.txt.count + 1), wrap64 (r1.txt.bytes + f.size)⟩ }
  else if isImageExt f.extension then
    { r1 with images := ⟨wrap64 (r1.images.count + 1), wrap64 (r1.images.bytes + f.size)⟩ }
  else if f.extension = extExe then
    { r1 with exe := ⟨wrap64 (r1.exe.count + 1), wrap64 (r1.exe.bytes + f.size)⟩ }
  else
    { r1 with other := ⟨wrap64 (r1.other.count + 1), wrap64 (r1.other.bytes + f.size)⟩ }

/-! ## The scan (`mylib.cpp`, lines 50-99) -/

/-- One entry yielded by the `recursive_directory_iterator`, with the answers
the library gives to the queries the loop body makes on it. -/
structure DirEntry where
  /-- The value of `entry.path()`. -/
  path : List Nat
  /-- The value of `entry.path().extension().string()`. -/
  extension : List Nat
  /-- The value returned by `entry.is_regular_file(ec)`. -/
  isRegularFile : Bool
  /-- Whether `ec` is set after `entry.is_regular_file(ec)`. -/
  typeError : Bool
  /-- The value returned by `entry.file_size(ec)`. -/
  fileSize : Nat
  /-- Whether `ec` is set after `entry.file_size(ec)`. -/
  sizeError : Bool
deriving DecidableEq, Repr

/-- The local variables of `scanDirectoryRecursive` that the loop updates. -/
structure LoopState where
  r : ScanResult
  ec : Bool
deriving DecidableEq, Repr

/-- The body of `for (const auto& entry : it)` (lines 70-95), run once. -/
def loopBody (s : LoopState) (entry : DirEntry) : LoopState :=
  if s.ec then
    -- ++r.skippedEntries; ec.clear(); continue;
    { r := { s.r with skippedEntries := wrap64 (s.r.skippedEntries + 1) }, ec := false }
  else if !entry.isRegularFile then
    -- if (ec) ec.clear(); continue;
    { r := s.r, ec := if entry.typeError then false else entry.typeError }
  else
    let size := wrap64 entry.fileSize
    if entry.sizeError then
      -- ++r.skippedEntries; ec.clear(); continue;
      { r := { s.r with skippedEntries := wrap64 (s.r.skippedEntries + 1) }, ec := false }
    else
      let info : FileInfo :=
        { path := entry.path, size := size, extension := normalizeExtension entry.extension }
      let r1 := { s.r with files := s.r.files ++ [info] }
      { r := addToCategory r1 info, ec := entry.sizeError }

/-- The whole `for` loop over the entries the iterator yields, in order. -/
def scanLoop (s : LoopState) (entries : List DirEntry) : LoopState :=
  entries.foldl loopBody s

/-- The filesystem as `scanDirectoryRecursive(root)` observes it. -/
structure FsWorld where
  /-- The value returned by `fs::exists(root, ec)`. -/
  rootExists : Bool
  /-- The value returned by `fs::is_directory(root, ec)`. -/
  rootIsDirectory : Bool
  /-- Whether `ec` is set after the iterator is constructed. -/
  iterSetupError : Bool
  /-- The entries the iterator yields, in discovery order. -/
  entries : List DirEntry
  /-- Whether the `operator++` after the last of `entries` throws, rather than
  reaching the end iterator. -/
  advanceThrows : Bool
deriving DecidableEq, Repr

/-- The way a scan can fail to return. -/
inductive ScanFailure where
  /-- A `std::filesystem::filesystem_error` thrown by `operator++` of the iterator. -/
  | filesystemError
deriving DecidableEq, Repr

/-- The function `ScanResult scanDirectoryRecursive(const fs::path& root)`
(lines 50-99). -/
def scanDirectoryRecursive (w : FsWorld) : Except ScanFailure ScanResult :=
  let r := { ScanResult.default with inputPathValid := w.rootExists && w.rootIsDirectory }
  if !r.inputPathValid then
    .ok r
  else if w.iterSetupError then
    .ok r
  else
    let s := scanLoop { r := r, ec := w.iterSetupError } w.entries
    if w.advanceThrows && !w.entries.isEmpty then
      .error ScanFailure.filesystemError
    else
      .ok s.r

/-! ## Filters (`mylib.cpp`, lines 101-130) -/

/-- Construction of a `std::vector` from a `std::views::filter` view
(`return {view.begin(), view.end()};`): the input is walked front to back and
every element on which the predicate holds is appended to the vector `out`. -/
def collectView (pred : FileInfo → Bool) : List FileInfo → List FileInfo → List FileInfo
  | [], out => out
  | f :: rest, out => collectView pred rest (if pred f then out ++ [f] else out)

/-- The function `filterTextFiles` (lines 101-104). -/
def filterTextFiles (files : List FileInfo) : List FileInfo :=
  collectView (fun f => decide (f.extension = extTxt)) files []

/-- The function `filterImageFiles` (lines 106-109). -/
def filterImageFiles (files : List FileInfo) : List FileInfo :=
  collectView (fun f => isImageExt f.extension) files []

/-- The function `filterExeFiles` (lines 111-114). -/
def filterExeFiles (files : List FileInfo) : List FileInfo :=
  collectView (fun f => decide (f.extension = extExe)) files []

/-- The function `filterLargeFilesGiB` (lines 116-120); `threshold` is computed
in `std::uint64_t`, left to right. -/
def filterLargeFilesGiB (files : List FileInfo) (minGiB : Nat) : List FileInfo :=
  let threshold := wrap64 (wrap64 (wrap64 (minGiB * 1024) * 1024) * 1024)
  collectView (fun f => decide (f.size ≥ threshold)) files []

/-- The call `filterLargeFilesGiB(files)` with the default argument `minGiB = 1`
of `mylib.h`. -/
def filterLargeFilesGiBDefault (files : List FileInfo) : List FileInfo :=
  filterLargeFilesGiB files 1

/-- The function `filterOtherFiles` (lines 122-130). -/
def filterOtherFiles (files : List FileInfo) : List FileInfo :=
  collectView (fun f =>
    let isTxt := decide (f.extension = extTxt)
    let isImg := isImageExt f.extension
    let isExe := decide (f.extension = extExe)
    !(isTxt || isImg || isExe)) files []

/-! ## The library's path decomposition, and a sample directory -/

/-- The library function `std::filesystem::path::filename()` for the generic
format: the bytes after the last directory separator `'/'` (47). -/
def pathFilename (p : List Nat) : List Nat :=
  (p.reverse.takeWhile (fun c => c != 47)).reverse

/-- The extension of a file name, as `std::filesystem::path::extension()`
defines it (C++17 [fs.path.decompose]): empty for the file names `"."` and
`".."`, for a file name without a period, and for a file name whose only
period is its first byte; otherwise the part of the file name from its
rightmost period (46) on. -/
def filenameExtension (name : List Nat) : List Nat :=
  if name = [46] ∨ name = [46, 46] then []
  else
    match name.reverse.dropWhile (fun c => c != 46) with
    | [] => []
    | [_] => []
    | _ :: _ :: _ => 46 :: (name.reverse.takeWhile (fun c => c != 46)).reverse

/-- The library function `std::filesystem::path::extension()`: the extension
of the file name of the path. -/
def pathExtension (p : List Nat) : List Nat :=
  filenameExtension (pathFilename p)

/-- The entry the iterator yields for a regular file `dir/name` of `size`
bytes on which both queries of the loop body succeed. -/
def regularFileEntry (dir name : List Nat) (size : Nat) : DirEntry :=
  { path := dir ++ 47 :: name, extension := pathExtension (dir ++ 47 :: name),
    isRegularFile := true, typeError := false, fileSize := size, sizeError := false }

/-- The bytes of `"a.TXT"`. -/
def nameA : List Nat := [97, 46, 84, 88, 84]

/-- The bytes of `"b.png"`. -/
def nameB : List Nat := [98, 46, 112, 110, 103]

/-- The bytes of `"c.exe"`. -/
def nameC : List Nat := [99, 46, 101, 120, 101]

/-- The bytes of `"d.bin"`. -/
def nameD : List Nat := [100, 46, 98, 105, 110]

/-- The four regular files of the example directory of the specification. -/
def exampleFiles (dir : List Nat) : List DirEntry :=
  [regularFileEntry dir nameA 10, regularFileEntry dir nameB 2048,
   regularFileEntry dir nameC 5, regularFileEntry dir nameD 7]

/-- An entry that is not a regular file (a sub-directory `dir/sub`). -/
def subdirEntry (dir : List Nat) : DirEntry :=
  { path := dir ++ [47, 115, 117, 98], extension := [],
    isRegularFile := false, typeError := false, fileSize := 0, sizeError := false }

/-- A regular file `dir/e.txt` whose size query fails (the library then
returns `static_cast<uintmax_t>(-1)`). -/
def unreadableEntry (dir : List Nat) : DirEntry :=
  { path := dir ++ [47, 101, 46, 116, 120, 116], extension := extTxt,
    isRegularFile := true, typeError := false, fileSize := 2 ^ 64 - 1, sizeError := true }

/-- A sample filesystem: the root `"r"` is a directory that lists `c.exe`, a
sub-directory, `a.TXT`, an unreadable file, `d.bin` and `b.png`, in this order. -/
def sampleWorld : FsWorld :=
  { rootExists := true, rootIsDirectory := true, iterSetupError := false,
    entries := [regularFileEntry [114] nameC 5, subdirEntry [114],
                regularFileEntry [114] nameA 10, unreadableEntry [114],
                regularFileEntry [114] nameD 7, regularFileEntry [114] nameB 2048],
    advanceThrows := false }

/-- The example directory of the specification as a filesystem: the root `"r"`
lists `c.exe`, a sub-directory, `a.TXT`, `d.bin` and `b.png`, in this order. -/
def exampleWorld : FsWorld :=
  { rootExists := true, rootIsDirectory := true, iterSetupError := false,
    entries := [regularFileEntry [114] nameC 5, subdirEntry [114],
                regularFileEntry [114] nameA 10, regularFileEntry [114] nameD 7,
                regularFileEntry [114] nameB 2048],
    advanceThrows := false }

/-- The snapshot `scanDirectoryRecursive` returns on `sampleWorld`. -/
def sampleResult : ScanResult :=
  { files := [⟨[114, 47, 99, 46, 101, 120, 101], 5, extExe⟩,
              ⟨[114, 47, 97, 46, 84, 88, 84], 10, extTxt⟩,
              ⟨[114, 47, 100, 46, 98, 105, 110], 7, [46, 98, 105, 110]⟩,
              ⟨[114, 47, 98, 46, 112, 110, 103], 2048, extPng⟩],
    txt := ⟨1, 10⟩, images := ⟨1, 2048⟩, exe := ⟨1, 5⟩, other := ⟨1, 7⟩,
    totalFiles := 4, totalBytes := 2070, skippedEntries := 1, inputPathValid := true }

/-! ## Rendering of a list (`mylib.cpp`, lines 157-169) -/

/-- One output statement of `printFileList`, with what it prints. -/
inductive OutputLine where
  /-- Line 160: `<path> | <size> bytes | <extension>` for the file `f`. -/
  | fileLine (f : FileInfo)
  /-- Line 162: `... (limited to <limit> items)`. -/
  | limitNotice (limit : Nat)
  /-- Line 167: `(no files)`. -/
  | noFiles
deriving DecidableEq, Repr

/-- The `for` loop of `printFileList` (lines 159-165), from the element at
which it stands: `shown` is the counter (a `std::size_t`, 64 bits wide) and
`out` the lines written so far. The result is the value of `shown` and the
output when the loop is left, by `break` or at the end of the list. -/
def printLoop (limit : Nat) : List FileInfo → Nat → List OutputLine → Nat × List OutputLine
  | [], shown, out => (shown, out)
  | f :: rest, shown, out =>
    let out1 := out ++ [OutputLine.fileLine f]
    let shown1 := wrap64 (shown + 1)
    if shown1 ≥ limit then
      (shown1, out1 ++ [OutputLine.limitNotice limit])
    else
      printLoop limit rest shown1 out1

/-- The function `printFileList(list, limit)` (lines 157-169): the lines it
writes to `std::cout`, in order. -/
def printFileList (list : List FileInfo) (limit : Nat) : List OutputLine :=
  let final := printLoop limit list 0 []
  if final.1 = 0 then final.2 ++ [OutputLine.noFiles] else final.2

/-- The call `printFileList(list)` with the default argument `limit = 200` of
`mylib.h`. -/
def printFileListDefault (list : List FileInfo) : List OutputLine :=
  printFileList list 200

/-! ## The program (`myApp/main.cpp`) -/

/-- The ways the process can end. What the program prints is left out. -/
inductive ProcessOutcome where
  /-- The function `main` returns `status`. -/
  | exited (status : Nat)
  /-- An exception leaves `main`, which has no handler: `std::terminate`. -/
  | uncaughtException
  /-- The menu loop never reads the choice 0. -/
  | neverExits
deriving DecidableEq, Repr

/-- The menu loop of `main` (lines 54-103). `choices` are the values
`readChoice()` returns while the input lasts; after them the input is at its
end, where `readChoice()` returns -1 on every call. Only the choice 0 leaves
the loop; every other choice prints and loops. -/
def menuLoop : List Int → ProcessOutcome
  | [] => ProcessOutcome.neverExits
  | choice :: rest => if choice = 0 then ProcessOutcome.exited 0 else menuLoop rest

/-- The function `main(argc, argv)` of `myApp/main.cpp`: `w` is the filesystem
at `argv[1]`. -/
def main (argc : Nat) (w : FsWorld) (choices : List Int) : ProcessOutcome :=
  if argc < 2 then
    ProcessOutcome.exited 1
  else
    match scanDirectoryRecursive w with
    | .error _ => ProcessOutcome.uncaughtException
    | .ok r =>
      if !r.inputPathValid then ProcessOutcome.exited 2
      else menuLoop choices

/-! ## Further sample filesystems -/

/-- A root that exists and is a directory, but for which the construction of
the iterator reports an error. -/
def setupFailureWorld : FsWorld :=
  { rootExists := true, rootIsDirectory := true, iterSetupError := true,
    entries := [], advanceThrows := false }

/-- A root that does not exist. -/
def missingRootWorld : FsWorld :=
  { rootExists := false, rootIsDirectory := false, iterSetupError := false,
    entries := [], advanceThrows := false }

/-- A directory `"r"` that lists `a.TXT`, after which advancing the iterator fails. -/
def advanceFailureWorld : FsWorld :=
  { rootExists := true, rootIsDirectory := true, iterSetupError := false,
    entries := [regularFileEntry [114] nameA 10], advanceThrows := true }

/-- The bytes of `"y.txt"`. -/
def nameY : List Nat := [121, 46, 116, 120, 116]

/-- The bytes of `"z.txt"`. -/
def nameZ : List Nat := [122, 46, 116, 120, 116]

/-- The loop state with which `scanDirectoryRecursive` enters the loop for a
valid root whose listing starts: `r` default-constructed with
`inputPathValid` set, `ec` clear. -/
def loopStart : LoopState :=
  { r := { ScanResult.default with inputPathValid := true }, ec := false }

/-- The entries of `sampleWorld` in another discovery order. -/
def sampleWorldReordered : FsWorld :=
  { sampleWorld with
    entries := [unreadableEntry [114], regularFileEntry [114] nameB 2048,
                regularFileEntry [114] nameA 10, subdirEntry [114],
                regularFileEntry [114] nameC 5, regularFileEntry [114] nameD 7] }

/-- A file `r/x` of 5 bytes without extension. -/
def fileX : FileInfo := { path := [114, 47, 120], size := 5, extension := [] }

/-- A file `r/y.txt` of 7 bytes. -/
def fileY : FileInfo := { path := [114, 47, 121, 46, 116, 120, 116], size := 7, extension := extTxt }

/-! ## The scan before the refactoring (`src/DZ_7/DZ_7.cpp`) -/

/-- The function `normalizeExtension` of `DZ_7.cpp` (lines 26-32):
`std::ranges::transform(ext, ext.begin(), tolower)`. -/
def normalizeExtensionDZ7 (ext : List Nat) : List Nat := ext.map tolower

/-- The function `isImageExt` of `DZ_7.cpp` (lines 34-39): membership in the set
`.jpg .jpeg .png .bmp .gif .tiff`. -/
def isImageExtDZ7 (ext : List Nat) : Bool :=
  [extJpg, extJpeg, extPng, extBmp, extGif, extTiff].contains ext

/-- The local variables of `main` of `DZ_7.cpp` that its scan loop updates
(lines 119-135). `FileInfo` and `CategoryStats` are declared in `DZ_7.cpp`
(lines 15-24) with the same members as in `mylib.h`. -/
structure LocalsDZ7 where
  txt : CategoryStats
  images : CategoryStats
  exe : CategoryStats
  other : CategoryStats
  totalFiles : Nat
  totalBytes : Nat
  skippedEntries : Nat
  files : List FileInfo
  ec : Bool
deriving DecidableEq, Repr

/-- The locals of `main` of `DZ_7.cpp` when its loop is entered: counters zero
(lines 126-133), `files` empty (`reserve` does not change its contents), `ec`
clear after the test of line 144. -/
def localsAtLoopEntryDZ7 : LocalsDZ7 :=
  { txt := ⟨0, 0⟩, images := ⟨0, 0⟩, exe := ⟨0, 0⟩, other := ⟨0, 0⟩,
    totalFiles := 0, totalBytes := 0, skippedEntries := 0, files := [], ec := false }

/-- The body of `for (const auto& entry : it)` in `main` of `DZ_7.cpp`
(lines 150-196), run once. -/
def loopBodyDZ7 (s : LocalsDZ7) (entry : DirEntry) : LocalsDZ7 :=
  if s.ec then
    -- ++skippedEntries; ec.clear(); continue;
    { s with skippedEntries := wrap64 (s.skippedEntries + 1), ec := false }
  else if !entry.isRegularFile then
    -- if (ec) ec.clear(); continue;
    { s with ec := if entry.typeError then false else entry.typeError }
  else
    let size := wrap64 entry.fileSize
    if entry.sizeError then
      -- ++skippedEntries; ec.clear(); continue;
      { s with skippedEntries := wrap64 (s.skippedEntries + 1), ec := false }
    else
      let info : FileInfo :=
        { path := entry.path, size := size,
          extension := normalizeExtensionDZ7 entry.extension }
      let s1 := { s with files := s.files ++ [info], ec := entry.sizeError,
                         totalFiles := wrap64 (s.totalFiles + 1),
                         totalBytes := wrap64 (s.totalBytes + size) }
      let ext := info.extension
      if ext = extTxt then
        { s1 with txt := ⟨wrap64 (s1.txt.count + 1), wrap64 (s1.txt.bytes + size)⟩ }
      else if isImageExtDZ7 ext then
        { s1 with images := ⟨wrap64 (s1.images.count + 1), wrap64 (s1.images.bytes + size)⟩ }
      else if ext = extExe then
        { s1 with exe := ⟨wrap64 (s1.exe.count + 1), wrap64 (s1.exe.bytes + size)⟩ }
      else
        { s1 with other := ⟨wrap64 (s1.other.count + 1), wrap64 (s1.other.bytes + size)⟩ }

/-- The whole scan loop of `main` of `DZ_7.cpp` over the entries the iterator
yields, in order. -/
def scanLoopDZ7 (s : LocalsDZ7) (entries : List DirEntry) : LocalsDZ7 :=
  entries.foldl loopBodyDZ7 s

/-- How far `main` of `DZ_7.cpp` gets up to the end of its scan loop. -/
inductive ScanPhaseDZ7 where
  /-- The function `main` returns `status` before the loop (lines 112-147). -/
  | exited (status : Nat)
  /-- A `std::filesystem::filesystem_error` thrown by `operator++` leaves `main`. -/
  | uncaughtException
  /-- The loop has run to the end of the listing with these locals. -/
  | scanned (locals : LocalsDZ7)
deriving DecidableEq, Repr

/-- The function `main` of `DZ_7.cpp` from its start to the end of its scan
loop (lines 109-197); `w` is the filesystem at `argv[1]`. -/
def scanPhaseDZ7 (argc : Nat) (w : FsWorld) : ScanPhaseDZ7 :=
  if argc < 2 then
    ScanPhaseDZ7.exited 1
  else if !w.rootExists || !w.rootIsDirectory then
    ScanPhaseDZ7.exited 2
  else if w.iterSetupError then
    ScanPhaseDZ7.exited 3
  else
    let s := scanLoopDZ7 { localsAtLoopEntryDZ7 with ec := w.iterSetupError } w.entries
    if w.advanceThrows && !w.entries.isEmpty then
      ScanPhaseDZ7.uncaughtException
    else
      ScanPhaseDZ7.scanned s

/-- The locals of `main` of `DZ_7.cpp` read as the loop state of
`scanDirectoryRecursive`, with `inputPathValid` set. -/
def asLoopState (s : LocalsDZ7) : LoopState :=
  { r := { files := s.files, txt := s.txt, images := s.images, exe := s.exe,
           other := s.other, totalFiles := s.totalFiles, totalBytes := s.totalBytes,
           skippedEntries := s.skippedEntries, inputPathValid := true },
    ec := s.ec }

/-! ## The root path and the two queries of line 54 -/

/-- What the root path is on the filesystem. -/
inductive RootKind where
  /-- Nothing exists at the path. -/
  | missing
  /-- The path names a directory. -/
  | directory
  /-- The path names something that is not a directory. -/
  | otherFile
deriving DecidableEq, Repr

/-- The root as it is, and whether its status can be read when line 54 asks.
The root does not change between the two queries. -/
structure RootFacts where
  kind : RootKind
  /-- Whether the status cannot be read in `fs::exists(root, ec)`, for instance
  because a directory on the way to the root may not be searched. -/
  existsQueryFails : Bool
  /-- Whether the status cannot be read in `fs::is_directory(root, ec)`. -/
  isDirectoryQueryFails : Bool
deriving DecidableEq, Repr

/-- The library function `fs::exists(p, ec)`: it sets `ec` and returns false
when the status cannot be read; otherwise it tells whether the path exists. -/
def fsExists (root : RootFacts) : Bool :=
  !root.existsQueryFails && decide (root.kind ≠ RootKind.missing)

/-- The library function `fs::is_directory(p, ec)`: it sets `ec` and returns
false when the status cannot be read; otherwise it tells whether the path
names a directory. -/
def fsIsDirectory (root : RootFacts) : Bool :=
  !root.isDirectoryQueryFails && decide (root.kind = RootKind.directory)

/-- The filesystem as `scanDirectoryRecursive(root)` observes it when the root
is as `root` says: line 54 uses the values the two queries return and does not
look at `ec`. -/
def observedWorld (root : RootFacts) (iterSetupError : Bool) (entries : List DirEntry)
    (advanceThrows : Bool) : FsWorld :=
  { rootExists := fsExists root, rootIsDirectory := fsIsDirectory root,
    iterSetupError := iterSetupError, entries := entries, advanceThrows := advanceThrows }

/-- An existing directory whose status cannot be read. -/
def unreadableDirectoryRoot : RootFacts :=
  { kind := RootKind.directory, existsQueryFails := true, isDirectoryQueryFails := true }

/-- An existing directory whose status can be read. -/
def readableDirectoryRoot : RootFacts :=
  { kind := RootKind.directory, existsQueryFails := false, isDirectoryQueryFails := false }

/-- The bytes of `"x.txt"`. -/
def nameX : List Nat := [120, 46, 116, 120, 116]

/-! ## Auxiliary predicates used by the proofs -/

/-- The totals agree with the four buckets, as `std::uint64_t` values. -/
def TotalsAgree (r : ScanResult) : Prop :=
  r.totalFiles = (r.txt.count + r.images.count + r.exe.count + r.other.count) % 2 ^ 64 ∧
  r.totalBytes = (r.txt.bytes + r.images.bytes + r.exe.bytes + r.other.bytes) % 2 ^ 64

/-- Every counter of the result is a `std::uint64_t` value. -/
def InRange (r : ScanResult) : Prop :=
  r.txt.count < 2 ^ 64 ∧ r.txt.bytes < 2 ^ 64 ∧ r.images.count < 2 ^ 64 ∧
  r.images.bytes < 2 ^ 64 ∧ r.exe.count < 2 ^ 64 ∧ r.exe.bytes < 2 ^ 64 ∧
  r.other.count < 2 ^ 64 ∧ r.other.bytes < 2 ^ 64 ∧ r.totalFiles < 2 ^ 64 ∧
  r.totalBytes < 2 ^ 64 ∧ r.skippedEntries < 2 ^ 64

/-- The record the loop body builds for an entry (lines 88-92). -/
def recordOf (e : DirEntry) : FileInfo :=
  { path := e.path, size := wrap64 e.fileSize, extension := normalizeExtension e.extension }

/-- The entries for which the loop body reaches `push_back`. -/
def isCounted (e : DirEntry) : Bool := e.isRegularFile && !e.sizeError

/-- The entries for which the loop body takes the branch of a failed size query. -/
def isSizeFailure (e : DirEntry) : Bool := e.isRegularFile && e.sizeError

/-- The records a run of the loop appends, in order. -/
def recordsOf (es : List DirEntry) : List FileInfo := (es.filter isCounted).map recordOf

/-- The predicate of `filterOtherFiles`. -/
def isOtherFile (f : FileInfo) : Bool :=
  !(decide (f.extension = extTxt) || isImageExt f.extension || decide (f.extension = extExe))

/-- A bucket after the files of `fs` that satisfy `p` have been added to it. -/
def bucketAfter (b : CategoryStats) (p : FileInfo → Bool) (fs : List FileInfo) :
    CategoryStats :=
  { count := (b.count + (fs.filter p).length) % 2 ^ 64,
    bytes := (b.bytes + ((fs.filter p).map FileInfo.size).sum) % 2 ^ 64 }

/-- The result after the records `fs` have been appended and classified and
`k` entries have been skipped, written in closed form. -/
def resultAfter (r : ScanResult) (fs : List FileInfo) (k : Nat) : ScanResult :=
  { files := r.files ++ fs,
    txt := bucketAfter r.txt (fun f => decide (f.extension = extTxt)) fs,
    images := bucketAfter r.images (fun f => isImageExt f.extension) fs,
    exe := bucketAfter r.exe (fun f => decide (f.extension = extExe)) fs,
    other := bucketAfter r.other isOtherFile fs,
    totalFiles := (r.totalFiles + fs.length) % 2 ^ 64,
    totalBytes := (r.totalBytes + (fs.map FileInfo.size).sum) % 2 ^ 64,
    skippedEntries := (r.skippedEntries + k) % 2 ^ 64,
    inputPathValid := r.inputPathValid }

/-! ## Arithmetic and list lemmas -/

theorem wrap64_eq (n : Nat) : wrap64 n = n % 18446744073709551616 := by
  simp [wrap64]

theorem two_pow_64 : (2 : Nat) ^ 64 = 18446744073709551616 := by norm_num

theorem collectView_eq_append (pred : FileInfo → Bool) (files out : List FileInfo) :
    collectView pred files out = out ++ files.filter pred := by
  induction files generalizing out with
  | nil => simp [collectView]
  | cons f rest ih =>
    by_cases hp : pred f = true
    · simp [collectView, ih, hp]
    · simp [collectView, ih, hp]

theorem collectView_eq_filter (pred : FileInfo → Bool) (files : List FileInfo) :
    collectView pred files [] = files.filter pred := by
  simp [collectView_eq_append]

/-! ## Invariants of `addToCategory` and of the loop -/

theorem totalsAgree_default (b : Bool) :
    TotalsAgree { ScanResult.default with inputPathValid := b } := by
  simp [TotalsAgree, ScanResult.default]

theorem totalsAgree_addToCategory (r : ScanResult) (f : FileInfo) (h : TotalsAgree r) :
    TotalsAgree (addToCategory r f) := by
  obtain ⟨h1, h2⟩ := h
  simp only [two_pow_64] at h1 h2
  unfold addToCategory TotalsAgree
  simp only [two_pow_64]
  split_ifs <;> simp only [wrap64_eq] <;> constructor <;> omega

theorem totalsAgree_loopBody (s : LoopState) (e : DirEntry) (h : TotalsAgree s.r) :
    TotalsAgree (loopBody s e).r := by
  unfold loopBody
  split_ifs
  all_goals first
    | exact h
    | exact totalsAgree_addToCategory _ _ h

theorem totalsAgree_scanLoop (es : List DirEntry) (s : LoopState) (h : TotalsAgree s.r) :
    TotalsAgree (scanLoop s es).r := by
  induction es generalizing s with
  | nil => exact h
  | cons e rest ih => exact ih _ (totalsAgree_loopBody s e h)

/-- What `scanDirectoryRecursive` returns, case by case. -/
theorem scanDirectoryRecursive_cases (w : FsWorld) (r : ScanResult)
    (h : scanDirectoryRecursive w = .ok r) :
    r = { ScanResult.default with inputPathValid := w.rootExists && w.rootIsDirectory } ∨
    ((w.rootExists && w.rootIsDirectory) = true ∧ w.iterSetupError = false ∧
      r = (scanLoop { r := { ScanResult.default with inputPathValid := true }, ec := false }
            w.entries).r) := by
  unfold scanDirectoryRecursive at h
  simp only at h
  split_ifs at h with h1 h2 h3
  · left; injection h with h; exact h.symm
  · left; injection h with h; exact h.symm
  · right
    have hv : (w.rootExists && w.rootIsDirectory) = true := by simpa using h1
    have he : w.iterSetupError = false := by simpa using h2
    refine ⟨hv, he, ?_⟩
    injection h with h
    rw [← h, hv, he]

/-! ## C1: the totals are the sums over the four buckets -/

/-- C1: whatever the filesystem answers, the `ScanResult` that
`scanDirectoryRecursive` returns has `totalFiles` equal to the sum of the four
bucket counts and `totalBytes` equal to the sum of the four bucket byte
counts, as `std::uint64_t` values (modulo `2^64`). -/
theorem scan_totals_are_bucket_sums (w : FsWorld) (r : ScanResult)
    (h : scanDirectoryRecursive w = .ok r) :
    r.totalFiles = (r.txt.count + r.images.count + r.exe.count + r.other.count) % 2 ^ 64 ∧
    r.totalBytes = (r.txt.bytes + r.images.bytes + r.exe.bytes + r.other.bytes) % 2 ^ 64 := by
  rcases scanDirectoryRecursive_cases w r h with h | ⟨_, _, h⟩
  · rw [h]; exact totalsAgree_default _
  · rw [h]; exact totalsAgree_scanLoop _ _ (totalsAgree_default true)

/-- C1 at the sample filesystem: the scan returns and its totals are the bucket sums. -/
theorem scan_totals_are_bucket_sums_witness :
    scanDirectoryRecursive sampleWorld = .ok sampleResult ∧
    sampleResult.totalFiles =
      (sampleResult.txt.count + sampleResult.images.count + sampleResult.exe.count
        + sampleResult.other.count) % 2 ^ 64 ∧
    sampleResult.totalBytes =
      (sampleResult.txt.bytes + sampleResult.images.bytes + sampleResult.exe.bytes
        + sampleResult.other.bytes) % 2 ^ 64 :=
  ⟨rfl, scan_totals_are_bucket_sums sampleWorld sampleResult rfl⟩

/-! ## C3: `addToCategory` updates exactly one bucket -/

theorem isImageExt_iff (ext : List Nat) :
    isImageExt ext = true ↔
      ext = extJpg ∨ ext = extJpeg ∨ ext = extPng ∨ ext = extBmp ∨ ext = extGif ∨
        ext = extTiff := by
  simp [isImageExt, imageExts]

theorem isImageExt_extTxt : isImageExt extTxt = false := by decide

theorem isImageExt_extExe : isImageExt extExe = false := by decide

theorem extTxt_ne_extExe : extTxt ≠ extExe := by decide

theorem isImageExt_nil : isImageExt [] = false := by decide

theorem bump_ne (s : CategoryStats) (b : Nat) :
    (s = (⟨(s.count + 1) % 18446744073709551616, b⟩ : CategoryStats)) ↔ False := by
  constructor
  · intro h
    have h1 : s.count = (s.count + 1) % 18446744073709551616 :=
      congrArg CategoryStats.count h
    omega
  · exact False.elim

theorem bump_ne_symm (s : CategoryStats) (b : Nat) :
    ((⟨(s.count + 1) % 18446744073709551616, b⟩ : CategoryStats) = s) ↔ False := by
  rw [eq_comm]; exact bump_ne s b

theorem extExe_ne_extTxt : extExe ≠ extTxt := by decide

theorem addToCategory_txt (r : ScanResult) (f : FileInfo) (h : f.extension = extTxt) :
    addToCategory r f =
      { r with totalFiles := wrap64 (r.totalFiles + 1),
               totalBytes := wrap64 (r.totalBytes + f.size),
               txt := ⟨wrap64 (r.txt.count + 1), wrap64 (r.txt.bytes + f.size)⟩ } := by
  simp [addToCategory, h]

theorem addToCategory_images (r : ScanResult) (f : FileInfo) (h1 : f.extension ≠ extTxt)
    (h2 : isImageExt f.extension = true) :
    addToCategory r f =
      { r with totalFiles := wrap64 (r.totalFiles + 1),
               totalBytes := wrap64 (r.totalBytes + f.size),
               images := ⟨wrap64 (r.images.count + 1), wrap64 (r.images.bytes + f.size)⟩ } := by
  simp [addToCategory, h1, h2]

theorem addToCategory_exe (r : ScanResult) (f : FileInfo)
    (h2 : isImageExt f.extension = false) (h3 : f.extension = extExe) :
    addToCategory r f =
      { r with totalFiles := wrap64 (r.totalFiles + 1),
               totalBytes := wrap64 (r.totalBytes + f.size),
               exe := ⟨wrap64 (r.exe.count + 1), wrap64 (r.exe.bytes + f.size)⟩ } := by
  rw [h3] at h2
  simp [addToCategory, h2, h3, extExe_ne_extTxt]

theorem addToCategory_other (r : ScanResult) (f : FileInfo) (h1 : f.extension ≠ extTxt)
    (h2 : isImageExt f.extension = false) (h3 : f.extension ≠ extExe) :
    addToCategory r f =
      { r with totalFiles := wrap64 (r.totalFiles + 1),
               totalBytes := wrap64 (r.totalBytes + f.size),
               other := ⟨wrap64 (r.other.count + 1), wrap64 (r.other.bytes + f.size)⟩ } := by
  simp [addToCategory, h1, h2, h3]

/-- C3: `addToCategory(r, f)` adds 1 to the count and `f.size` to the bytes
(in `std::uint64_t`) of exactly one bucket and leaves the other three as they
were: the text bucket iff `f.extension` is `".txt"`, the image bucket iff it
is one of `.jpg .jpeg .png .bmp .gif .tiff`, the executable bucket iff it is
`".exe"`, the other bucket iff it is none of these; the empty extension goes
to the other bucket. -/
theorem addToCategory_updates_exactly_one_bucket (r : ScanResult) (f : FileInfo) :
    (f.extension = extTxt ↔
      ((addToCategory r f).txt
          = ⟨(r.txt.count + 1) % 2 ^ 64, (r.txt.bytes + f.size) % 2 ^ 64⟩ ∧
        (addToCategory r f).images = r.images ∧ (addToCategory r f).exe = r.exe ∧
        (addToCategory r f).other = r.other)) ∧
    (f.extension ∈ [extJpg, extJpeg, extPng, extBmp, extGif, extTiff] ↔
      ((addToCategory r f).images
          = ⟨(r.images.count + 1) % 2 ^ 64, (r.images.bytes + f.size) % 2 ^ 64⟩ ∧
        (addToCategory r f).txt = r.txt ∧ (addToCategory r f).exe = r.exe ∧
        (addToCategory r f).other = r.other)) ∧
    (f.extension = extExe ↔
      ((addToCategory r f).exe
          = ⟨(r.exe.count + 1) % 2 ^ 64, (r.exe.bytes + f.size) % 2 ^ 64⟩ ∧
        (addToCategory r f).txt = r.txt ∧ (addToCategory r f).images = r.images ∧
        (addToCategory r f).other = r.other)) ∧
    ((f.extension ≠ extTxt ∧
        f.extension ∉ [extJpg, extJpeg, extPng, extBmp, extGif, extTiff] ∧
        f.extension ≠ extExe) ↔
      ((addToCategory r f).other
          = ⟨(r.other.count + 1) % 2 ^ 64, (r.other.bytes + f.size) % 2 ^ 64⟩ ∧
        (addToCategory r f).txt = r.txt ∧ (addToCategory r f).images = r.images ∧
        (addToCategory r f).exe = r.exe)) ∧
    (f.extension = [] →
      (addToCategory r f).other
        = ⟨(r.other.count + 1) % 2 ^ 64, (r.other.bytes + f.size) % 2 ^ 64⟩) := by
  have hmem : f.extension ∈ [extJpg, extJpeg, extPng, extBmp, extGif, extTiff] ↔
      isImageExt f.extension = true := by
    rw [isImageExt_iff]; simp
  rw [hmem]
  by_cases h1 : f.extension = extTxt
  · rw [addToCategory_txt r f h1, h1]
    simp [wrap64, isImageExt_extTxt, extTxt_ne_extExe, bump_ne, bump_ne_symm]
    decide
  · by_cases h2 : isImageExt f.extension = true
    · have h3 : f.extension ≠ extExe := by
        intro h; rw [h, isImageExt_extExe] at h2; exact Bool.noConfusion h2
      have h4 : f.extension ≠ [] := by
        intro h; rw [h, isImageExt_nil] at h2; exact Bool.noConfusion h2
      rw [addToCategory_images r f h1 h2]
      simp [wrap64, h1, h2, h3, h4, bump_ne, bump_ne_symm]
    · have h2f : isImageExt f.extension = false := by simpa using h2
      by_cases h3 : f.extension = extExe
      · have h4 : f.extension ≠ [] := by rw [h3]; decide
        rw [addToCategory_exe r f h2f h3, h3]
        simp [wrap64, isImageExt_extExe, extExe_ne_extTxt, bump_ne, bump_ne_symm]
        decide
      · rw [addToCategory_other r f h1 h2f h3]
        simp [wrap64, h1, h2f, h3, bump_ne, bump_ne_symm]

/-! ## C4 and C2: the filters -/

theorem filterTextFiles_eq (files : List FileInfo) :
    filterTextFiles files = files.filter (fun f => decide (f.extension = extTxt)) :=
  collectView_eq_filter _ files

theorem filterImageFiles_eq (files : List FileInfo) :
    filterImageFiles files = files.filter (fun f => isImageExt f.extension) :=
  collectView_eq_filter _ files

theorem filterExeFiles_eq (files : List FileInfo) :
    filterExeFiles files = files.filter (fun f => decide (f.extension = extExe)) :=
  collectView_eq_filter _ files

theorem filterOtherFiles_eq (files : List FileInfo) :
    filterOtherFiles files =
      files.filter (fun f =>
        !(decide (f.extension = extTxt) || isImageExt f.extension
          || decide (f.extension = extExe))) :=
  collectView_eq_filter _ files

theorem filterLargeFilesGiB_eq (files : List FileInfo) (minGiB : Nat) :
    filterLargeFilesGiB files minGiB =
      files.filter (fun f => decide (f.size ≥ (minGiB * 2 ^ 30) % 2 ^ 64)) := by
  have ht : wrap64 (wrap64 (wrap64 (minGiB * 1024) * 1024) * 1024)
      = (minGiB * 2 ^ 30) % 2 ^ 64 := by
    simp only [wrap64_eq]
    norm_num
    omega
  unfold filterLargeFilesGiB
  simp only [ht]
  exact collectView_eq_filter _ files

/-- C4: each of `filterTextFiles`, `filterImageFiles`, `filterExeFiles`,
`filterOtherFiles` and `filterLargeFilesGiB` returns the order-preserving
filter of its input by its predicate: exactly the elements that satisfy the
predicate, as often as they occur in the input and in the same relative order
(the result is a sublist of the input). The input is a value the function
only reads. -/
theorem filters_are_order_preserving_filters (files : List FileInfo) (minGiB : Nat) :
    (filterTextFiles files = files.filter (fun f => decide (f.extension = extTxt)) ∧
      List.Sublist (filterTextFiles files) files) ∧
    (filterImageFiles files = files.filter (fun f => isImageExt f.extension) ∧
      List.Sublist (filterImageFiles files) files) ∧
    (filterExeFiles files = files.filter (fun f => decide (f.extension = extExe)) ∧
      List.Sublist (filterExeFiles files) files) ∧
    (filterOtherFiles files =
        files.filter (fun f =>
          !(decide (f.extension = extTxt) || isImageExt f.extension
            || decide (f.extension = extExe))) ∧
      List.Sublist (filterOtherFiles files) files) ∧
    (filterLargeFilesGiB files minGiB =
        files.filter (fun f => decide (f.size ≥ (minGiB * 2 ^ 30) % 2 ^ 64)) ∧
      List.Sublist (filterLargeFilesGiB files minGiB) files) := by
  refine ⟨⟨filterTextFiles_eq files, ?_⟩, ⟨filterImageFiles_eq files, ?_⟩,
    ⟨filterExeFiles_eq files, ?_⟩, ⟨filterOtherFiles_eq files, ?_⟩,
    ⟨filterLargeFilesGiB_eq files minGiB, ?_⟩⟩
  · rw [filterTextFiles_eq]; exact List.filter_sublist _
  · rw [filterImageFiles_eq]; exact List.filter_sublist _
  · rw [filterExeFiles_eq]; exact List.filter_sublist _
  · rw [filterOtherFiles_eq]; exact List.filter_sublist _
  · rw [filterLargeFilesGiB_eq]; exact List.filter_sublist _

theorem filters_count_sum (files : List FileInfo) (g : FileInfo) :
    (filterTextFiles files).count g + (filterImageFiles files).count g
      + (filterExeFiles files).count g + (filterOtherFiles files).count g
      = files.count g := by
  rw [filterTextFiles_eq, filterImageFiles_eq, filterExeFiles_eq, filterOtherFiles_eq]
  induction files with
  | nil => simp
  | cons f rest ih =>
    by_cases h1 : f.extension = extTxt
    · simp only [List.filter_cons, h1, isImageExt_extTxt, extTxt_ne_extExe, decide_True,
        decide_False, Bool.or_false, Bool.or_true, Bool.not_true, Bool.not_false, if_true,
        Bool.false_eq_true, if_false, List.count_cons] at ih ⊢
      omega
    · by_cases h2 : isImageExt f.extension = true
      · have h3 : f.extension ≠ extExe := by
          intro h; rw [h, isImageExt_extExe] at h2; exact Bool.noConfusion h2
        simp only [List.filter_cons, h1, h2, h3, decide_True,
          decide_False, Bool.or_false, Bool.or_true, Bool.not_true, Bool.not_false, if_true,
          Bool.false_eq_true, if_false, List.count_cons, Bool.false_or] at ih ⊢
        omega
      · have h2f : isImageExt f.extension = false := by simpa using h2
        by_cases h3 : f.extension = extExe
        · simp only [List.filter_cons, h3, isImageExt_extExe, extExe_ne_extTxt, decide_True,
            decide_False, Bool.or_false, Bool.or_true, Bool.not_true, Bool.not_false, if_true,
            Bool.false_eq_true, if_false, List.count_cons, Bool.false_or] at ih ⊢
          omega
        · simp only [List.filter_cons, h1, h2f, h3, decide_True,
            decide_False, Bool.or_false, Bool.or_true, Bool.not_true, Bool.not_false, if_true,
            Bool.false_eq_true, if_false, List.count_cons, Bool.false_or] at ih ⊢
          omega

theorem filters_length_sum (files : List FileInfo) :
    (filterTextFiles files).length + (filterImageFiles files).length
      + (filterExeFiles files).length + (filterOtherFiles files).length
      = files.length := by
  rw [filterTextFiles_eq, filterImageFiles_eq, filterExeFiles_eq, filterOtherFiles_eq]
  induction files with
  | nil => simp
  | cons f rest ih =>
    by_cases h1 : f.extension = extTxt
    · simp only [List.filter_cons, h1, isImageExt_extTxt, extTxt_ne_extExe, decide_True,
        decide_False, Bool.or_false, Bool.or_true, Bool.not_true, Bool.not_false, if_true,
        Bool.false_eq_true, if_false, List.length_cons] at ih ⊢
      omega
    · by_cases h2 : isImageExt f.extension = true
      · have h3 : f.extension ≠ extExe := by
          intro h; rw [h, isImageExt_extExe] at h2; exact Bool.noConfusion h2
        simp only [List.filter_cons, h1, h2, h3, decide_True,
          decide_False, Bool.or_false, Bool.or_true, Bool.not_true, Bool.not_false, if_true,
          Bool.false_eq_true, if_false, List.length_cons, Bool.false_or] at ih ⊢
        omega
      · have h2f : isImageExt f.extension = false := by simpa using h2
        by_cases h3 : f.extension = extExe
        · simp only [List.filter_cons, h3, isImageExt_extExe, extExe_ne_extTxt, decide_True,
            decide_False, Bool.or_false, Bool.or_true, Bool.not_true, Bool.not_false, if_true,
            Bool.false_eq_true, if_false, List.length_cons, Bool.false_or] at ih ⊢
          omega
        · simp only [List.filter_cons, h1, h2f, h3, decide_True,
            decide_False, Bool.or_false, Bool.or_true, Bool.not_true, Bool.not_false, if_true,
            Bool.false_eq_true, if_false, List.length_cons, Bool.false_or] at ih ⊢
          omega

/-- C2: for every list of `FileInfo`, whatever the extensions, the results of
`filterTextFiles`, `filterImageFiles`, `filterExeFiles` and `filterOtherFiles`
partition the input: the four lengths sum to the length of the input, every
value occurs in the four results together exactly as often as in the input,
every element of the input is in exactly one of the four results, and the
results contain nothing else. -/
theorem filters_partition_the_input (files : List FileInfo) :
    ((filterTextFiles files).length + (filterImageFiles files).length
        + (filterExeFiles files).length + (filterOtherFiles files).length
        = files.length) ∧
    (∀ f : FileInfo,
      (filterTextFiles files).count f + (filterImageFiles files).count f
        + (filterExeFiles files).count f + (filterOtherFiles files).count f
        = files.count f) ∧
    (∀ f : FileInfo, f ∈ files →
      (f ∈ filterTextFiles files ∧ f ∉ filterImageFiles files ∧
          f ∉ filterExeFiles files ∧ f ∉ filterOtherFiles files) ∨
      (f ∉ filterTextFiles files ∧ f ∈ filterImageFiles files ∧
          f ∉ filterExeFiles files ∧ f ∉ filterOtherFiles files) ∨
      (f ∉ filterTextFiles files ∧ f ∉ filterImageFiles files ∧
          f ∈ filterExeFiles files ∧ f ∉ filterOtherFiles files) ∨
      (f ∉ filterTextFiles files ∧ f ∉ filterImageFiles files ∧
          f ∉ filterExeFiles files ∧ f ∈ filterOtherFiles files)) ∧
    (∀ f : FileInfo,
      (f ∈ filterTextFiles files ∨ f ∈ filterImageFiles files ∨
          f ∈ filterExeFiles files ∨ f ∈ filterOtherFiles files) → f ∈ files) := by
  refine ⟨filters_length_sum files, filters_count_sum files, ?_, ?_⟩
  · intro f hf
    rw [filterTextFiles_eq, filterImageFiles_eq, filterExeFiles_eq, filterOtherFiles_eq]
    simp only [List.mem_filter, hf, true_and]
    by_cases h1 : f.extension = extTxt
    · left
      rw [h1]
      simp [isImageExt_extTxt, extTxt_ne_extExe]
    · by_cases h2 : isImageExt f.extension = true
      · right; left
        have h3 : f.extension ≠ extExe := by
          intro h; rw [h, isImageExt_extExe] at h2; exact Bool.noConfusion h2
        simp [h1, h2, h3]
      · have h2f : isImageExt f.extension = false := by simpa using h2
        by_cases h3 : f.extension = extExe
        · right; right; left
          rw [h3]
          simp [isImageExt_extExe, extExe_ne_extTxt]
        · right; right; right
          simp [h1, h2f, h3]
  · intro f hf
    rw [filterTextFiles_eq, filterImageFiles_eq, filterExeFiles_eq, filterOtherFiles_eq] at hf
    simp only [List.mem_filter] at hf
    rcases hf with h | h | h | h <;> exact h.1

/-! ## C5 and C6: the size threshold -/

theorem filterLargeFilesGiB_of_lt (files : List FileInfo) (minGiB : Nat)
    (h : minGiB < 2 ^ 34) :
    filterLargeFilesGiB files minGiB
      = files.filter (fun f => decide (f.size ≥ minGiB * 2 ^ 30)) := by
  rw [filterLargeFilesGiB_eq]
  have hm : (minGiB * 2 ^ 30) % 2 ^ 64 = minGiB * 2 ^ 30 := by
    apply Nat.mod_eq_of_lt
    norm_num at h ⊢
    omega
  rw [hm]

/-- C5, the code at `minGiB = 2^34`, a value of `std::uint64_t`: the product
`minGiB * 1024 * 1024 * 1024` wraps to 0 in `std::uint64_t`, so
`filterLargeFilesGiB` returns a file of 5 bytes, although 5 is below the
integer product `2^34 * 2^30`. -/
theorem filterLargeFilesGiB_threshold_wraps :
    2 ^ 34 < 2 ^ 64 ∧
    filterLargeFilesGiB [⟨[114, 47, 120], 5, []⟩] (2 ^ 34) = [⟨[114, 47, 120], 5, []⟩] ∧
    ¬ (5 ≥ 2 ^ 34 * 2 ^ 30) := by
  refine ⟨by norm_num, ?_, by norm_num⟩
  rw [filterLargeFilesGiB_eq]
  decide

/-- C6: with `minGiB = 1`, passed explicitly or as the default argument,
`filterLargeFilesGiB` returns every file of the input whose size is exactly
`2^30` bytes and no file whose size is `2^30 - 1` bytes. -/
theorem filterLargeFilesGiB_one_boundary (files : List FileInfo) :
    (∀ f : FileInfo, f ∈ files → f.size = 2 ^ 30 →
      f ∈ filterLargeFilesGiB files 1 ∧ f ∈ filterLargeFilesGiBDefault files) ∧
    (∀ f : FileInfo, f.size = 2 ^ 30 - 1 →
      f ∉ filterLargeFilesGiB files 1 ∧ f ∉ filterLargeFilesGiBDefault files) := by
  have h1 : filterLargeFilesGiB files 1
      = files.filter (fun f => decide (f.size ≥ 1 * 2 ^ 30)) :=
    filterLargeFilesGiB_of_lt files 1 (by norm_num)
  unfold filterLargeFilesGiBDefault
  rw [h1]
  constructor
  · intro f hf hs
    have : f ∈ files.filter (fun f => decide (f.size ≥ 1 * 2 ^ 30)) := by
      rw [List.mem_filter]
      exact ⟨hf, by rw [hs]; decide⟩
    exact ⟨this, this⟩
  · intro f hs
    have : f ∉ files.filter (fun f => decide (f.size ≥ 1 * 2 ^ 30)) := by
      rw [List.mem_filter]
      rintro ⟨_, h⟩
      rw [hs] at h
      revert h
      decide
    exact ⟨this, this⟩

/-! ## An invalid root, in terms of the answers of the queries -/

theorem inputPathValid_addToCategory (r : ScanResult) (f : FileInfo) :
    (addToCategory r f).inputPathValid = r.inputPathValid := by
  unfold addToCategory
  split_ifs <;> rfl

theorem inputPathValid_loopBody (s : LoopState) (e : DirEntry) :
    (loopBody s e).r.inputPathValid = s.r.inputPathValid := by
  unfold loopBody
  split_ifs
  all_goals first
    | rfl
    | exact inputPathValid_addToCategory _ _

theorem inputPathValid_scanLoop (es : List DirEntry) (s : LoopState) :
    (scanLoop s es).r.inputPathValid = s.r.inputPathValid := by
  induction es generalizing s with
  | nil => rfl
  | cons e rest ih =>
    show (scanLoop (loopBody s e) rest).r.inputPathValid = _
    rw [ih, inputPathValid_loopBody]

/-- The flag in terms of the answers of the two queries: a `ScanResult`
returned by `scanDirectoryRecursive` has `inputPathValid == false` if and only
if `fs::exists(root, ec)` or `fs::is_directory(root, ec)` answered false; and
whenever one of them answers false the call returns (nothing is thrown) the
default `ScanResult`: `files` empty, the four buckets, `totalFiles`,
`totalBytes` and `skippedEntries` zero, `inputPathValid` false. -/
theorem scan_invalid_root (w : FsWorld) :
    (∀ r : ScanResult, scanDirectoryRecursive w = .ok r →
      (r.inputPathValid = false ↔ (w.rootExists = false ∨ w.rootIsDirectory = false))) ∧
    ((w.rootExists = false ∨ w.rootIsDirectory = false) →
      scanDirectoryRecursive w =
        .ok { files := [], txt := ⟨0, 0⟩, images := ⟨0, 0⟩, exe := ⟨0, 0⟩, other := ⟨0, 0⟩,
              totalFiles := 0, totalBytes := 0, skippedEntries := 0,
              inputPathValid := false }) := by
  constructor
  · intro r h
    rcases scanDirectoryRecursive_cases w r h with h | ⟨hv, _, h⟩
    · rw [h]
      cases w.rootExists <;> cases w.rootIsDirectory <;> simp [ScanResult.default]
    · rw [h, inputPathValid_scanLoop]
      revert hv
      cases w.rootExists <;> cases w.rootIsDirectory <;> simp
  · intro h
    have hv : (w.rootExists && w.rootIsDirectory) = false := by
      rcases h with h | h <;> simp [h]
    simp [scanDirectoryRecursive, hv, ScanResult.default]

/-! ## The loop in closed form -/

theorem bucketAfter_nil (b : CategoryStats) (p : FileInfo → Bool)
    (h1 : b.count < 2 ^ 64) (h2 : b.bytes < 2 ^ 64) : bucketAfter b p [] = b := by
  cases b
  simp only [bucketAfter, List.filter_nil, List.length_nil, List.map_nil, List.sum_nil,
    Nat.add_zero]
  simp only at h1 h2
  rw [Nat.mod_eq_of_lt h1, Nat.mod_eq_of_lt h2]

theorem bucketAfter_append (b : CategoryStats) (p : FileInfo → Bool)
    (fs gs : List FileInfo) :
    bucketAfter (bucketAfter b p fs) p gs = bucketAfter b p (fs ++ gs) := by
  simp only [bucketAfter, List.filter_append, List.length_append, List.map_append,
    List.sum_append, CategoryStats.mk.injEq]
  constructor
  · rw [Nat.mod_add_mod, Nat.add_assoc]
  · rw [Nat.mod_add_mod, Nat.add_assoc]

theorem bucketAfter_perm (b : CategoryStats) (p : FileInfo → Bool)
    (fs gs : List FileInfo) (h : fs.Perm gs) : bucketAfter b p fs = bucketAfter b p gs := by
  have hf : (fs.filter p).Perm (gs.filter p) := h.filter p
  simp only [bucketAfter, hf.length_eq, (hf.map FileInfo.size).sum_eq]

theorem resultAfter_nil (r : ScanResult) (h : InRange r) : resultAfter r [] 0 = r := by
  obtain ⟨h1, h2, h3, h4, h5, h6, h7, h8, h9, h10, h11⟩ := h
  cases r
  simp only [resultAfter, bucketAfter_nil _ _ h1 h2, bucketAfter_nil _ _ h3 h4,
    bucketAfter_nil _ _ h5 h6, bucketAfter_nil _ _ h7 h8, List.append_nil, List.length_nil,
    List.map_nil, List.sum_nil, Nat.add_zero]
  simp only at h9 h10 h11
  rw [Nat.mod_eq_of_lt h9, Nat.mod_eq_of_lt h10, Nat.mod_eq_of_lt h11]

theorem resultAfter_append (r : ScanResult) (fs gs : List FileInfo) (j k : Nat) :
    resultAfter (resultAfter r fs j) gs k = resultAfter r (fs ++ gs) (j + k) := by
  simp only [resultAfter, bucketAfter_append, List.append_assoc, List.length_append,
    List.map_append, List.sum_append, Nat.mod_add_mod, Nat.add_assoc]

theorem inRange_resultAfter (r : ScanResult) (fs : List FileInfo) (k : Nat) :
    InRange (resultAfter r fs k) := by
  have hpos : 0 < 2 ^ 64 := by norm_num
  simp only [InRange, resultAfter, bucketAfter]
  refine ⟨?_, ?_, ?_, ?_, ?_, ?_, ?_, ?_, ?_, ?_, ?_⟩ <;> exact Nat.mod_lt _ hpos

theorem inRange_default (b : Bool) :
    InRange { ScanResult.default with inputPathValid := b } := by
  simp [InRange, ScanResult.default]

theorem stats_mod (b : CategoryStats) (h1 : b.count < 2 ^ 64) (h2 : b.bytes < 2 ^ 64) :
    ({ count := b.count % 18446744073709551616,
       bytes := b.bytes % 18446744073709551616 } : CategoryStats) = b := by
  cases b
  simp only [two_pow_64] at h1 h2
  simp only [Nat.mod_eq_of_lt h1, Nat.mod_eq_of_lt h2]

theorem nat_mod_lit (n : Nat) (h : n < 2 ^ 64) : n % 18446744073709551616 = n := by
  simp only [two_pow_64] at h
  exact Nat.mod_eq_of_lt h

theorem addToCategory_eq_resultAfter (r : ScanResult) (f : FileInfo) (h : InRange r) :
    addToCategory { r with files := r.files ++ [f] } f = resultAfter r [f] 0 := by
  obtain ⟨h1, h2, h3, h4, h5, h6, h7, h8, h9, h10, h11⟩ := h
  by_cases c1 : f.extension = extTxt
  · rw [addToCategory_txt _ f c1]
    simp [resultAfter, bucketAfter, isOtherFile, wrap64, c1, isImageExt_extTxt,
      extTxt_ne_extExe, stats_mod _ h3 h4, stats_mod _ h5 h6, stats_mod _ h7 h8,
      nat_mod_lit _ h11]
  · by_cases c2 : isImageExt f.extension = true
    · have c3 : f.extension ≠ extExe := by
        intro h; rw [h, isImageExt_extExe] at c2; exact Bool.noConfusion c2
      rw [addToCategory_images _ f c1 c2]
      simp [resultAfter, bucketAfter, isOtherFile, wrap64, c1, c2, c3,
        stats_mod _ h1 h2, stats_mod _ h5 h6, stats_mod _ h7 h8, nat_mod_lit _ h11]
    · have c2f : isImageExt f.extension = false := by simpa using c2
      by_cases c3 : f.extension = extExe
      · rw [addToCategory_exe _ f c2f c3]
        simp [resultAfter, bucketAfter, isOtherFile, wrap64, c3, isImageExt_extExe,
          extExe_ne_extTxt, stats_mod _ h1 h2, stats_mod _ h3 h4, stats_mod _ h7 h8,
          nat_mod_lit _ h11]
      · rw [addToCategory_other _ f c1 c2f c3]
        simp [resultAfter, bucketAfter, isOtherFile, wrap64, c1, c2f, c3,
          stats_mod _ h1 h2, stats_mod _ h3 h4, stats_mod _ h5 h6, nat_mod_lit _ h11]

theorem loopBody_ec (s : LoopState) (e : DirEntry) : (loopBody s e).ec = false := by
  unfold loopBody
  split_ifs with h1 h2 h3 h4
  · rfl
  · rfl
  · simp only [Bool.not_eq_true] at h3
    exact h3
  · rfl
  · simp only [Bool.not_eq_true] at h4
    exact h4

theorem loopBody_of_size_failure (s : LoopState) (e : DirEntry)
    (hreg : e.isRegularFile = true) (hsz : e.sizeError = true) :
    loopBody s e =
      { r := { s.r with skippedEntries := wrap64 (s.r.skippedEntries + 1) }, ec := false } := by
  unfold loopBody
  simp [hreg, hsz]

theorem loopBody_of_not_regular (r : ScanResult) (e : DirEntry)
    (hreg : e.isRegularFile = false) :
    loopBody { r := r, ec := false } e = { r := r, ec := false } := by
  unfold loopBody
  simp [hreg]

theorem loopBody_of_counted (r : ScanResult) (e : DirEntry)
    (hreg : e.isRegularFile = true) (hsz : e.sizeError = false) :
    loopBody { r := r, ec := false } e =
      { r := addToCategory { r with files := r.files ++ [recordOf e] } (recordOf e),
        ec := false } := by
  unfold loopBody
  simp [hreg, hsz, recordOf]

theorem recordsOf_cons (e : DirEntry) (es : List DirEntry) :
    recordsOf (e :: es) = (if isCounted e then [recordOf e] else []) ++ recordsOf es := by
  unfold recordsOf
  by_cases h : isCounted e = true <;> simp [List.filter_cons, h]

theorem loopBody_eq_resultAfter (r : ScanResult) (e : DirEntry) (h : InRange r) :
    loopBody { r := r, ec := false } e =
      { r := resultAfter r (if isCounted e then [recordOf e] else [])
               (if isSizeFailure e then 1 else 0),
        ec := false } := by
  cases hreg : e.isRegularFile
  · rw [loopBody_of_not_regular r e hreg]
    simp [isCounted, isSizeFailure, hreg, resultAfter_nil r h]
  · cases hsz : e.sizeError
    · rw [loopBody_of_counted r e hreg hsz, addToCategory_eq_resultAfter r _ h]
      simp [isCounted, isSizeFailure, hreg, hsz]
    · rw [loopBody_of_size_failure _ e hreg hsz]
      obtain ⟨h1, h2, h3, h4, h5, h6, h7, h8, h9, h10, h11⟩ := h
      simp [isCounted, isSizeFailure, hreg, hsz, resultAfter, bucketAfter, wrap64,
        stats_mod _ h1 h2, stats_mod _ h3 h4, stats_mod _ h5 h6, stats_mod _ h7 h8,
        nat_mod_lit _ h9, nat_mod_lit _ h10]

theorem scanLoop_eq_resultAfter (es : List DirEntry) (r : ScanResult) (h : InRange r) :
    scanLoop { r := r, ec := false } es =
      { r := resultAfter r (recordsOf es) (es.filter isSizeFailure).length, ec := false } := by
  induction es generalizing r with
  | nil => simp [scanLoop, recordsOf, resultAfter_nil r h]
  | cons e rest ih =>
    show scanLoop (loopBody { r := r, ec := false } e) rest = _
    rw [loopBody_eq_resultAfter r e h, ih _ (inRange_resultAfter _ _ _), resultAfter_append,
      recordsOf_cons]
    by_cases hk : isSizeFailure e = true
    · simp [List.filter_cons, hk, Nat.add_comm]
    · simp [List.filter_cons, hk]

/-- A scan of a valid root that returns, in closed form. -/
theorem scan_valid_eq (w : FsWorld) (hv : (w.rootExists && w.rootIsDirectory) = true)
    (hs : w.iterSetupError = false) (r : ScanResult)
    (h : scanDirectoryRecursive w = .ok r) :
    r = resultAfter { ScanResult.default with inputPathValid := true }
          (recordsOf w.entries) (w.entries.filter isSizeFailure).length := by
  unfold scanDirectoryRecursive at h
  simp only [hv, hs, Bool.not_true, Bool.false_eq_true, if_false] at h
  split_ifs at h
  injection h with h
  rw [← h, scanLoop_eq_resultAfter _ _ (inRange_default true)]

theorem scan_valid_returns (w : FsWorld) (hv : (w.rootExists && w.rootIsDirectory) = true)
    (hs : w.iterSetupError = false) (ha : w.advanceThrows = false) :
    scanDirectoryRecursive w =
      .ok (resultAfter { ScanResult.default with inputPathValid := true }
            (recordsOf w.entries) (w.entries.filter isSizeFailure).length) := by
  unfold scanDirectoryRecursive
  simp only [hv, hs, ha, Bool.not_true, Bool.false_eq_true, if_false, Bool.false_and]
  rw [scanLoop_eq_resultAfter _ _ (inRange_default true)]

theorem scanLoop_append (s : LoopState) (pre post : List DirEntry) :
    scanLoop s (pre ++ post) = scanLoop (scanLoop s pre) post := by
  simp [scanLoop, List.foldl_append]

/-! ## C10: a failed size query -/

/-- C10: when the loop reaches, after any entries `pre`, an entry that is a
regular file and whose size query fails, the body adds exactly one to
`skippedEntries` (in `std::uint64_t`), leaves `files`, the four buckets,
`totalFiles`, `totalBytes` and `inputPathValid` as they were and clears `ec`;
the loop then goes on with the entries `post` that follow. -/
theorem failed_size_query_is_skipped (s : LoopState) (pre post : List DirEntry)
    (e : DirEntry) (hreg : e.isRegularFile = true) (hsz : e.sizeError = true) :
    (loopBody (scanLoop s pre) e).r.skippedEntries
        = ((scanLoop s pre).r.skippedEntries + 1) % 2 ^ 64 ∧
    (loopBody (scanLoop s pre) e).r.files = (scanLoop s pre).r.files ∧
    (loopBody (scanLoop s pre) e).r.txt = (scanLoop s pre).r.txt ∧
    (loopBody (scanLoop s pre) e).r.images = (scanLoop s pre).r.images ∧
    (loopBody (scanLoop s pre) e).r.exe = (scanLoop s pre).r.exe ∧
    (loopBody (scanLoop s pre) e).r.other = (scanLoop s pre).r.other ∧
    (loopBody (scanLoop s pre) e).r.totalFiles = (scanLoop s pre).r.totalFiles ∧
    (loopBody (scanLoop s pre) e).r.totalBytes = (scanLoop s pre).r.totalBytes ∧
    (loopBody (scanLoop s pre) e).r.inputPathValid = (scanLoop s pre).r.inputPathValid ∧
    (loopBody (scanLoop s pre) e).ec = false ∧
    scanLoop s (pre ++ e :: post) = scanLoop (loopBody (scanLoop s pre) e) post := by
  have hstep : scanLoop (scanLoop s pre) (e :: post)
      = scanLoop (loopBody (scanLoop s pre) e) post := rfl
  rw [scanLoop_append, hstep, loopBody_of_size_failure _ e hreg hsz]
  exact ⟨rfl, rfl, rfl, rfl, rfl, rfl, rfl, rfl, rfl, rfl, rfl⟩

/-- C10 at a concrete run: after `c.exe` has been counted, the unreadable
entry only raises `skippedEntries` from 0 to 1, and `d.bin` is processed next. -/
theorem failed_size_query_is_skipped_witness :
    (unreadableEntry [114]).isRegularFile = true ∧
    (unreadableEntry [114]).sizeError = true ∧
    (scanLoop { r := { ScanResult.default with inputPathValid := true }, ec := false }
        [regularFileEntry [114] nameC 5]).r.skippedEntries = 0 ∧
    (loopBody
        (scanLoop { r := { ScanResult.default with inputPathValid := true }, ec := false }
          [regularFileEntry [114] nameC 5])
        (unreadableEntry [114])).r.skippedEntries = 1 ∧
    (loopBody
        (scanLoop { r := { ScanResult.default with inputPathValid := true }, ec := false }
          [regularFileEntry [114] nameC 5])
        (unreadableEntry [114])).r.files
      = [⟨[114, 47, 99, 46, 101, 120, 101], 5, extExe⟩] ∧
    (scanLoop { r := { ScanResult.default with inputPathValid := true }, ec := false }
        ([regularFileEntry [114] nameC 5] ++ unreadableEntry [114]
          :: [regularFileEntry [114] nameD 7])).r.totalFiles = 2 :=
  have h := failed_size_query_is_skipped
    { r := { ScanResult.default with inputPathValid := true }, ec := false }
    [regularFileEntry [114] nameC 5] [regularFileEntry [114] nameD 7]
    (unreadableEntry [114]) rfl rfl
  ⟨rfl, rfl, rfl, h.1.trans rfl, h.2.1.trans rfl, rfl⟩

/-! ## C9: stored extensions are lower-case -/

theorem tolower_not_upper (c : Nat) : ¬ (65 ≤ tolower c ∧ tolower c ≤ 90) := by
  unfold tolower
  split_ifs <;> omega

theorem tolower_tolower (c : Nat) : tolower (tolower c) = tolower c := by
  unfold tolower
  split_ifs <;> omega

theorem normalizeExtension_idem (ext : List Nat) :
    normalizeExtension (normalizeExtension ext) = normalizeExtension ext := by
  simp [normalizeExtension, tolower_tolower]

theorem mem_recordsOf (f : FileInfo) (es : List DirEntry) (h : f ∈ recordsOf es) :
    ∃ e, e ∈ es ∧ e.isRegularFile = true ∧ e.sizeError = false ∧ f = recordOf e := by
  unfold recordsOf at h
  rw [List.mem_map] at h
  obtain ⟨e, he, hfe⟩ := h
  rw [List.mem_filter] at he
  have hc : e.isRegularFile = true ∧ e.sizeError = false := by
    simpa [isCounted] using he.2
  exact ⟨e, he.1, hc.1, hc.2, hfe.symm⟩

theorem scan_files_subset (w : FsWorld) (r : ScanResult)
    (h : scanDirectoryRecursive w = .ok r) (f : FileInfo) (hf : f ∈ r.files) :
    f ∈ recordsOf w.entries := by
  rcases scanDirectoryRecursive_cases w r h with h | ⟨_, _, h⟩
  · rw [h] at hf
    simp [ScanResult.default] at hf
  · rw [h, scanLoop_eq_resultAfter _ _ (inRange_default true)] at hf
    simpa [resultAfter, ScanResult.default] using hf

/-- C9: every `FileInfo` that `scanDirectoryRecursive` stores in `files` comes
from an entry that is a regular file with a successful size query, and its
`extension` is `normalizeExtension` of the raw extension of that entry: it has
the same length, byte `i` is the raw byte `i` with `A..Z` (65..90) moved to
`a..z` (plus 32) and every other byte unchanged; so the stored extension
holds no upper-case ASCII letter and normalising it again changes nothing. -/
theorem stored_extension_is_lowercased (w : FsWorld) (r : ScanResult)
    (h : scanDirectoryRecursive w = .ok r) (f : FileInfo) (hf : f ∈ r.files) :
    ∃ e, e ∈ w.entries ∧ e.isRegularFile = true ∧ e.sizeError = false ∧
      f.path = e.path ∧
      f.extension = normalizeExtension e.extension ∧
      f.extension.length = e.extension.length ∧
      (∀ i : Nat, f.extension[i]? =
        (e.extension[i]?).map (fun c => if 65 ≤ c ∧ c ≤ 90 then c + 32 else c)) ∧
      (∀ c : Nat, c ∈ f.extension → ¬ (65 ≤ c ∧ c ≤ 90)) ∧
      normalizeExtension f.extension = f.extension := by
  obtain ⟨e, he, hreg, hsz, hfe⟩ := mem_recordsOf f w.entries (scan_files_subset w r h f hf)
  refine ⟨e, he, hreg, hsz, ?_, ?_, ?_, ?_, ?_, ?_⟩
  · rw [hfe]; rfl
  · rw [hfe]; rfl
  · rw [hfe]; simp [recordOf, normalizeExtension]
  · intro i
    rw [hfe]
    simp only [recordOf, normalizeExtension, List.getElem?_map]
    rfl
  · intro c hc
    rw [hfe] at hc
    simp only [recordOf, normalizeExtension, List.mem_map] at hc
    obtain ⟨c0, _, hc0⟩ := hc
    rw [← hc0]
    exact tolower_not_upper c0
  · rw [hfe]
    exact normalizeExtension_idem _

/-- C9 at the sample filesystem, for the record of `r/a.TXT`. -/
theorem stored_extension_is_lowercased_witness :
    scanDirectoryRecursive sampleWorld = .ok sampleResult ∧
    (⟨[114, 47, 97, 46, 84, 88, 84], 10, extTxt⟩ : FileInfo) ∈ sampleResult.files ∧
    ∃ e, e ∈ sampleWorld.entries ∧ e.isRegularFile = true ∧ e.sizeError = false ∧
      [114, 47, 97, 46, 84, 88, 84] = e.path ∧
      extTxt = normalizeExtension e.extension ∧
      extTxt.length = e.extension.length ∧
      (∀ i : Nat, extTxt[i]? =
        (e.extension[i]?).map (fun c => if 65 ≤ c ∧ c ≤ 90 then c + 32 else c)) ∧
      (∀ c : Nat, c ∈ extTxt → ¬ (65 ≤ c ∧ c ≤ 90)) ∧
      normalizeExtension extTxt = extTxt :=
  ⟨rfl, by decide,
    stored_extension_is_lowercased sampleWorld sampleResult rfl
      ⟨[114, 47, 97, 46, 84, 88, 84], 10, extTxt⟩ (by decide)⟩

/-! ## C8: the example directory -/

theorem pathFilename_in_dir (dir name : List Nat) (h : ∀ c ∈ name, c ≠ 47) :
    pathFilename (dir ++ 47 :: name) = name := by
  unfold pathFilename
  have hrev : (dir ++ 47 :: name).reverse = name.reverse ++ (47 :: dir.reverse) := by
    simp
  have hall : ∀ c ∈ name.reverse, (fun c : Nat => c != 47) c = true := by
    intro c hc
    simpa using h c (List.mem_reverse.mp hc)
  rw [hrev, List.takeWhile_append_of_pos hall]
  simp

theorem recordsOf_exampleFiles (dir : List Nat) :
    recordsOf (exampleFiles dir) =
      [⟨dir ++ 47 :: nameA, 10, extTxt⟩, ⟨dir ++ 47 :: nameB, 2048, extPng⟩,
       ⟨dir ++ 47 :: nameC, 5, extExe⟩, ⟨dir ++ 47 :: nameD, 7, [46, 98, 105, 110]⟩] := by
  have hA : pathFilename (dir ++ 47 :: nameA) = nameA := pathFilename_in_dir dir nameA (by decide)
  have hB : pathFilename (dir ++ 47 :: nameB) = nameB := pathFilename_in_dir dir nameB (by decide)
  have hC : pathFilename (dir ++ 47 :: nameC) = nameC := pathFilename_in_dir dir nameC (by decide)
  have hD : pathFilename (dir ++ 47 :: nameD) = nameD := pathFilename_in_dir dir nameD (by decide)
  have eA : normalizeExtension (filenameExtension nameA) = extTxt := by decide
  have eB : normalizeExtension (filenameExtension nameB) = extPng := by decide
  have eC : normalizeExtension (filenameExtension nameC) = extExe := by decide
  have eD : normalizeExtension (filenameExtension nameD) = [46, 98, 105, 110] := by decide
  simp [recordsOf, exampleFiles, regularFileEntry, isCounted, recordOf, pathExtension,
    hA, hB, hC, hD, eA, eB, eC, eD, wrap64]

theorem recordsOf_filter_regular (es : List DirEntry) :
    recordsOf (es.filter (fun e => e.isRegularFile)) = recordsOf es := by
  unfold recordsOf
  rw [List.filter_filter]
  congr 1
  apply List.filter_congr
  intro e _
  cases h : e.isRegularFile <;> simp [isCounted, h]

theorem sizeFailures_filter_regular (es : List DirEntry) :
    (es.filter (fun e => e.isRegularFile)).filter isSizeFailure = es.filter isSizeFailure := by
  rw [List.filter_filter]
  apply List.filter_congr
  intro e _
  cases h : e.isRegularFile <;> simp [isSizeFailure, h]

/-- C8: let the root be a directory whose listing starts without error and
runs to its end, and let the entries that are regular files be, in any order
and with any other entries in between, `a.TXT` (10 bytes), `b.png` (2048
bytes), `c.exe` (5 bytes) and `d.bin` (7 bytes) of the directory `dir`. Then
`scanDirectoryRecursive` returns a result with `txt = {1, 10}`,
`images = {1, 2048}`, `exe = {1, 5}`, `other = {1, 7}`, `totalFiles = 4`,
`totalBytes = 2070`; its `files` are the four records in discovery order, and
the record of `a.TXT` has the extension `".txt"`. -/
theorem scan_example_directory (w : FsWorld) (dir : List Nat)
    (hroot : w.rootExists = true) (hdir : w.rootIsDirectory = true)
    (hsetup : w.iterSetupError = false) (hend : w.advanceThrows = false)
    (hfiles : (w.entries.filter (fun e => e.isRegularFile)).Perm (exampleFiles dir)) :
    ∃ r : ScanResult, scanDirectoryRecursive w = .ok r ∧
      r.txt = ⟨1, 10⟩ ∧ r.images = ⟨1, 2048⟩ ∧ r.exe = ⟨1, 5⟩ ∧ r.other = ⟨1, 7⟩ ∧
      r.totalFiles = 4 ∧ r.totalBytes = 2070 ∧ r.skippedEntries = 0 ∧
      r.inputPathValid = true ∧
      r.files.Perm
        [⟨dir ++ 47 :: nameA, 10, extTxt⟩, ⟨dir ++ 47 :: nameB, 2048, extPng⟩,
         ⟨dir ++ 47 :: nameC, 5, extExe⟩, ⟨dir ++ 47 :: nameD, 7, [46, 98, 105, 110]⟩] ∧
      (∀ f : FileInfo, f ∈ r.files → f.path = dir ++ 47 :: nameA → f.extension = extTxt) := by
  have hv : (w.rootExists && w.rootIsDirectory) = true := by simp [hroot, hdir]
  have hrec : (recordsOf w.entries).Perm
      [⟨dir ++ 47 :: nameA, 10, extTxt⟩, ⟨dir ++ 47 :: nameB, 2048, extPng⟩,
       ⟨dir ++ 47 :: nameC, 5, extExe⟩, ⟨dir ++ 47 :: nameD, 7, [46, 98, 105, 110]⟩] := by
    rw [← recordsOf_filter_regular, ← recordsOf_exampleFiles]
    exact (hfiles.filter isCounted).map recordOf
  have hskip : (w.entries.filter isSizeFailure).length = 0 := by
    rw [← sizeFailures_filter_regular, (hfiles.filter isSizeFailure).length_eq]
    rfl
  refine ⟨_, scan_valid_returns w hv hsetup hend, ?_, ?_, ?_, ?_, ?_, ?_, ?_, ?_, ?_, ?_⟩
  · show bucketAfter _ _ _ = _
    rw [bucketAfter_perm _ _ _ _ hrec]; rfl
  · show bucketAfter _ _ _ = _
    rw [bucketAfter_perm _ _ _ _ hrec]; rfl
  · show bucketAfter _ _ _ = _
    rw [bucketAfter_perm _ _ _ _ hrec]; rfl
  · show bucketAfter _ _ _ = _
    rw [bucketAfter_perm _ _ _ _ hrec]; rfl
  · show (0 + (recordsOf w.entries).length) % 2 ^ 64 = 4
    rw [hrec.length_eq]; rfl
  · show (0 + ((recordsOf w.entries).map FileInfo.size).sum) % 2 ^ 64 = 2070
    rw [(hrec.map FileInfo.size).sum_eq]; norm_num
  · show (0 + (w.entries.filter isSizeFailure).length) % 2 ^ 64 = 0
    rw [hskip]; rfl
  · rfl
  · show ([] ++ recordsOf w.entries).Perm _
    simpa using hrec
  · intro f hf hp
    have hf2 : f ∈ recordsOf w.entries := by
      have : f ∈ ([] : List FileInfo) ++ recordsOf w.entries := hf
      simpa using this
    have hf3 := hrec.mem_iff.mp hf2
    simp only [List.mem_cons, List.mem_singleton, List.not_mem_nil, or_false] at hf3
    rcases hf3 with h | h | h | h
    · rw [h]
    · rw [h] at hp
      exact absurd (List.cons.inj (List.append_cancel_left hp)).2 (by decide)
    · rw [h] at hp
      exact absurd (List.cons.inj (List.append_cancel_left hp)).2 (by decide)
    · rw [h] at hp
      exact absurd (List.cons.inj (List.append_cancel_left hp)).2 (by decide)

/-- C8 at a concrete listing: `c.exe`, a sub-directory, `a.TXT`, `d.bin`, `b.png`. -/
theorem scan_example_directory_witness :
    (exampleWorld.entries.filter (fun e => e.isRegularFile)).Perm (exampleFiles [114]) ∧
    ∃ r : ScanResult, scanDirectoryRecursive exampleWorld = .ok r ∧
      r.txt = ⟨1, 10⟩ ∧ r.images = ⟨1, 2048⟩ ∧ r.exe = ⟨1, 5⟩ ∧ r.other = ⟨1, 7⟩ ∧
      r.totalFiles = 4 ∧ r.totalBytes = 2070 ∧ r.skippedEntries = 0 ∧
      r.inputPathValid = true ∧
      r.files.Perm
        [⟨[114] ++ 47 :: nameA, 10, extTxt⟩, ⟨[114] ++ 47 :: nameB, 2048, extPng⟩,
         ⟨[114] ++ 47 :: nameC, 5, extExe⟩, ⟨[114] ++ 47 :: nameD, 7, [46, 98, 105, 110]⟩] ∧
      (∀ f : FileInfo, f ∈ r.files → f.path = [114] ++ 47 :: nameA →
        f.extension = extTxt) :=
  ⟨by decide, scan_example_directory exampleWorld [114] rfl rfl rfl rfl (by decide)⟩

/-! ## C11: a failing advance of the iterator -/

/-- Whenever the root is valid, the listing starts, at least one entry is
yielded and a later advance fails, the exception leaves the function: no
`ScanResult` is returned. -/
theorem scan_throws_of_advance_failure (w : FsWorld)
    (hv : (w.rootExists && w.rootIsDirectory) = true) (hs : w.iterSetupError = false)
    (ha : w.advanceThrows = true) (he : w.entries ≠ []) :
    scanDirectoryRecursive w = .error ScanFailure.filesystemError := by
  have hne : w.entries.isEmpty = false := by
    cases hw : w.entries with
    | nil => exact absurd hw he
    | cons _ _ => rfl
  unfold scanDirectoryRecursive
  simp [hv, hs, ha, hne]

/-- C11, the code where the advance fails: in a valid directory that lists
`a.TXT` and whose iterator then fails to advance, `scanDirectoryRecursive`
does not return a `ScanResult` (with `skippedEntries` raised); the
`filesystem_error` thrown by `operator++` leaves the function. -/
theorem scan_advance_failure_is_thrown :
    advanceFailureWorld.rootExists = true ∧ advanceFailureWorld.rootIsDirectory = true ∧
    advanceFailureWorld.iterSetupError = false ∧
    scanDirectoryRecursive advanceFailureWorld = .error ScanFailure.filesystemError ∧
    ¬ ∃ r : ScanResult, scanDirectoryRecursive advanceFailureWorld = .ok r := by
  refine ⟨rfl, rfl, rfl, rfl, ?_⟩
  rintro ⟨r, hr⟩
  have h : scanDirectoryRecursive advanceFailureWorld = .error ScanFailure.filesystemError :=
    rfl
  rw [h] at hr
  exact Except.noConfusion hr

/-! ## C12: the listing cannot be set up -/

/-- C12: if `fs::exists` and `fs::is_directory` answer true for the root and
the construction of the recursive iterator sets `ec`, then
`scanDirectoryRecursive` returns at once a snapshot with
`inputPathValid == true`, `files` empty and the four buckets, `totalFiles`,
`totalBytes` and `skippedEntries` all zero. -/
theorem scan_setup_failure_returns_empty_valid (w : FsWorld)
    (hroot : w.rootExists = true) (hdir : w.rootIsDirectory = true)
    (hsetup : w.iterSetupError = true) :
    scanDirectoryRecursive w =
      .ok { files := [], txt := ⟨0, 0⟩, images := ⟨0, 0⟩, exe := ⟨0, 0⟩, other := ⟨0, 0⟩,
            totalFiles := 0, totalBytes := 0, skippedEntries := 0,
            inputPathValid := true } := by
  simp [scanDirectoryRecursive, hroot, hdir, hsetup, ScanResult.default]

/-- C12 at a concrete filesystem whose listing cannot be set up. -/
theorem scan_setup_failure_returns_empty_valid_witness :
    scanDirectoryRecursive setupFailureWorld =
      .ok { files := [], txt := ⟨0, 0⟩, images := ⟨0, 0⟩, exe := ⟨0, 0⟩, other := ⟨0, 0⟩,
            totalFiles := 0, totalBytes := 0, skippedEntries := 0,
            inputPathValid := true } :=
  scan_setup_failure_returns_empty_valid setupFailureWorld rfl rfl rfl

/-! ## C13: the exit status of the program -/

theorem menuLoop_status (choices : List Int) (n : Nat)
    (h : menuLoop choices = ProcessOutcome.exited n) : n = 0 := by
  induction choices with
  | nil => exact ProcessOutcome.noConfusion h
  | cons c rest ih =>
    unfold menuLoop at h
    split_ifs at h
    · injection h with h; exact h.symm
    · exact ih h

/-- Whenever the listing cannot be set up for a valid root, `main` enters the
menu loop: it can only return 0. -/
theorem main_status_of_setup_failure (argc : Nat) (w : FsWorld) (choices : List Int)
    (hroot : w.rootExists = true) (hdir : w.rootIsDirectory = true)
    (hsetup : w.iterSetupError = true) (n : Nat)
    (h : main argc w choices = ProcessOutcome.exited n) : n = 0 ∨ n = 1 := by
  unfold main at h
  simp only [scanDirectoryRecursive, hroot, hdir, hsetup, ScanResult.default,
    Bool.and_self, Bool.not_true, Bool.false_eq_true, if_false, if_true] at h
  split_ifs at h
  · injection h with h; exact Or.inr h.symm
  · exact Or.inl (menuLoop_status choices n h)

/-- C13, the code where the listing cannot be set up: for a root that exists
and is a directory, started with a path argument and given the choice 0,
`main` returns 0, the success status; it returns 2 for a root that does not
exist. No status other than success is returned for the setup failure. -/
theorem main_setup_failure_exits_with_success :
    setupFailureWorld.rootExists = true ∧ setupFailureWorld.rootIsDirectory = true ∧
    setupFailureWorld.iterSetupError = true ∧
    main 2 setupFailureWorld [0] = ProcessOutcome.exited 0 ∧
    main 2 missingRootWorld [0] = ProcessOutcome.exited 2 ∧
    (∀ choices : List Int, ∀ n : Nat,
      main 2 setupFailureWorld choices = ProcessOutcome.exited n → n = 0) := by
  refine ⟨rfl, rfl, rfl, by decide, by decide, ?_⟩
  intro choices n h
  rcases main_status_of_setup_failure 2 setupFailureWorld choices rfl rfl rfl n h with h0 | h1
  · exact h0
  · exfalso
    rw [h1] at h
    have hm : main 2 setupFailureWorld choices = menuLoop choices := by
      simp [main, scanDirectoryRecursive, setupFailureWorld, ScanResult.default]
    rw [hm] at h
    have := menuLoop_status choices 1 h
    omega

/-! ## The rendering loop in closed form -/

theorem printLoop_eq (limit : Nat) (hl : limit < 2 ^ 64) (list : List FileInfo) :
    ∀ (shown : Nat) (out : List OutputLine), (shown < limit ∨ shown = 0) →
      printLoop limit list shown out =
        if list.length < max (limit - shown) 1 then
          (shown + list.length, out ++ list.map OutputLine.fileLine)
        else
          (shown + max (limit - shown) 1,
            out ++ (list.take (max (limit - shown) 1)).map OutputLine.fileLine
              ++ [OutputLine.limitNotice limit]) := by
  simp only [two_pow_64] at hl
  induction list with
  | nil =>
    intro shown out _
    have h0 : 0 < max (limit - shown) 1 := by omega
    simp [printLoop, h0]
  | cons f rest ih =>
    intro shown out hs
    have hw : wrap64 (shown + 1) = shown + 1 := by
      rw [wrap64_eq]
      apply Nat.mod_eq_of_lt
      omega
    unfold printLoop
    simp only [hw]
    by_cases hb : shown + 1 ≥ limit
    · have hk : max (limit - shown) 1 = 1 := by omega
      simp [hb, hk]
    · have hk1 : max (limit - (shown + 1)) 1 = limit - shown - 1 := by omega
      have hk : max (limit - shown) 1 = (limit - shown - 1) + 1 := by omega
      rw [if_neg hb, ih (shown + 1) _ (Or.inl (by omega)), hk1, hk]
      by_cases hlen : rest.length < limit - shown - 1
      · have hlen2 : (f :: rest).length < limit - shown - 1 + 1 := by
          simp only [List.length_cons]; omega
        rw [if_pos hlen, if_pos hlen2]
        simp only [List.length_cons, List.map_cons, List.append_assoc, List.singleton_append,
          Prod.mk.injEq, and_true]
        omega
      · have hlen2 : ¬ (f :: rest).length < limit - shown - 1 + 1 := by
          simp only [List.length_cons]; omega
        rw [if_neg hlen, if_neg hlen2]
        simp only [List.take_succ_cons, List.map_cons, List.append_assoc,
          List.singleton_append, Prod.mk.injEq, and_true]
        omega

/-- The output of `printFileList` for a limit that is a `std::size_t`. -/
theorem printFileList_eq (list : List FileInfo) (limit : Nat) (hl : limit < 2 ^ 64) :
    printFileList list limit =
      if list = [] then [OutputLine.noFiles]
      else if list.length < limit then list.map OutputLine.fileLine
      else (list.take (max limit 1)).map OutputLine.fileLine
              ++ [OutputLine.limitNotice limit] := by
  unfold printFileList
  simp only [printLoop_eq limit hl list 0 [] (Or.inr rfl), Nat.sub_zero, Nat.zero_add,
    List.nil_append]
  cases list with
  | nil =>
    have h0 : 0 < max limit 1 := by omega
    simp [h0]
  | cons f rest =>
    have hne : (f :: rest) ≠ [] := List.cons_ne_nil f rest
    rw [if_neg hne]
    by_cases hlen : (f :: rest).length < limit
    · have hlen2 : (f :: rest).length < max limit 1 := by omega
      rw [if_pos hlen, if_pos hlen2]
      simp
    · have hlen2 : ¬ (f :: rest).length < max limit 1 := by
        simp only [List.length_cons] at hlen ⊢; omega
      have hk : max limit 1 ≠ 0 := by omega
      rw [if_neg hlen, if_neg hlen2]
      simp [hk]

/-! ## C14: a list longer than the limit -/

/-- For a limit from 1 on, a list with more than `limit` elements is rendered
as its first `limit` elements followed by one truncation notice. -/
theorem printFileList_of_longer (list : List FileInfo) (limit : Nat) (hl : limit < 2 ^ 64)
    (h1 : 1 ≤ limit) (hlen : limit < list.length) :
    printFileList list limit =
      (list.take limit).map OutputLine.fileLine ++ [OutputLine.limitNotice limit] := by
  have hne : list ≠ [] := by
    intro h; rw [h] at hlen; simp at hlen
  have hk : max limit 1 = limit := by omega
  rw [printFileList_eq list limit hl, if_neg hne, if_neg (by omega), hk]

/-- C14, the code at `limit = 0`: for the list of the two files `r/x` and
`r/y.txt`, which is longer than the limit, `printFileList` writes one file
line, for `r/x`, and then the notice `limited to 0 items`; the claim asks for
no file line before the notice. -/
theorem printFileList_limit_zero_writes_a_file_line :
    (0 : Nat) < [fileX, fileY].length ∧
    printFileList [fileX, fileY] 0
      = [OutputLine.fileLine fileX, OutputLine.limitNotice 0] ∧
    printFileList [fileX, fileY] 0
      ≠ ([fileX, fileY].take 0).map OutputLine.fileLine ++ [OutputLine.limitNotice 0] := by
  decide

/-! ## C15: when the truncation notice is written -/

/-- C15, the code at a list of exactly `limit` elements: the list of the one
file `r/x` with `limit = 1` is written in full, nothing is cut off, and it is
still followed by the notice `limited to 1 items`; so the notice is not
written only for lists with more than `limit` elements. -/
theorem printFileList_notice_at_exact_limit :
    printFileList [fileX] 1 = [OutputLine.fileLine fileX, OutputLine.limitNotice 1] ∧
    ¬ (∀ (list : List FileInfo) (limit : Nat), limit < 2 ^ 64 →
        OutputLine.limitNotice limit ∈ printFileList list limit → limit < list.length) := by
  refine ⟨by decide, ?_⟩
  intro h
  have h1 := h [fileX] 1 (by norm_num) (by decide)
  simp at h1

/-- When the code writes the truncation notice, for every list and every
limit that is a `std::size_t`: exactly when the list is not empty and has at
least `limit` elements. A list with fewer than `limit` elements is written in
full with no notice (the empty list as the `(no files)` line); a list of
exactly `limit` elements, `limit` from 1 on, is written in full and followed
by the notice. -/
theorem printFileList_notice_iff_limit_reached (list : List FileInfo) (limit : Nat)
    (hl : limit < 2 ^ 64) :
    (OutputLine.limitNotice limit ∈ printFileList list limit ↔
      (list ≠ [] ∧ limit ≤ list.length)) ∧
    (∀ k : Nat, OutputLine.limitNotice k ∈ printFileList list limit → k = limit) ∧
    (list = [] → printFileList list limit = [OutputLine.noFiles]) ∧
    (list ≠ [] → list.length < limit →
      printFileList list limit = list.map OutputLine.fileLine) ∧
    (1 ≤ limit → list.length = limit →
      printFileList list limit
        = list.map OutputLine.fileLine ++ [OutputLine.limitNotice limit]) := by
  rw [printFileList_eq list limit hl]
  refine ⟨?_, ?_, ?_, ?_, ?_⟩
  · by_cases hne : list = []
    · simp [hne]
    · by_cases hlen : list.length < limit
      · have : ¬ limit ≤ list.length := by omega
        simp [hne, hlen, this]
      · have : limit ≤ list.length := by omega
        simp [hne, hlen, this]
  · intro k
    by_cases hne : list = []
    · simp [hne]
    · by_cases hlen : list.length < limit
      · simp [hne, hlen]
      · simp only [if_neg hne, if_neg hlen, List.mem_append, List.mem_map,
          List.mem_singleton, OutputLine.limitNotice.injEq]
        rintro (⟨_, _, h⟩ | h)
        · exact OutputLine.noConfusion h
        · exact h
  · intro hne
    simp [hne]
  · intro hne hlen
    simp [hne, hlen]
  · intro h1 hlen
    have hne : list ≠ [] := by
      intro h; rw [h] at hlen; simp at hlen; omega
    have hk : max limit 1 = limit := by omega
    rw [if_neg hne, if_neg (by omega), hk, ← hlen, List.take_length]

/-! ## C16: the empty list -/

/-- C16: for the empty list `printFileList` writes the `(no files)` line and
nothing else, whatever the limit; for a list that is not empty it does not
write the `(no files)` line, for every limit that is a `std::size_t`. -/
theorem printFileList_no_files_iff_empty (list : List FileInfo) (limit : Nat)
    (hl : limit < 2 ^ 64) :
    printFileList [] limit = [OutputLine.noFiles] ∧
    (list ≠ [] → OutputLine.noFiles ∉ printFileList list limit) := by
  constructor
  · rw [printFileList_eq [] limit hl]
    simp
  · intro hne
    rw [printFileList_eq list limit hl, if_neg hne]
    by_cases hlen : list.length < limit
    · simp [hlen]
    · simp only [if_neg hlen, List.mem_append, List.mem_map, List.mem_singleton]
      rintro (⟨_, _, h⟩ | h)
      · exact OutputLine.noConfusion h
      · exact OutputLine.noConfusion h

/-- C16 at the default limit 200, for the empty list and for the list of `r/x`. -/
theorem printFileList_no_files_iff_empty_witness :
    (200 : Nat) < 2 ^ 64 ∧
    printFileList [] 200 = [OutputLine.noFiles] ∧
    printFileListDefault [] = [OutputLine.noFiles] ∧
    ([fileX] ≠ [] → OutputLine.noFiles ∉ printFileList [fileX] 200) :=
  ⟨by norm_num,
    (printFileList_no_files_iff_empty [fileX] 200 (by norm_num)).1, by decide,
    (printFileList_no_files_iff_empty [fileX] 200 (by norm_num)).2⟩

/-! ## How one run of the loop body changes a bucket -/

theorem addToCategory_buckets (r : ScanResult) (f : FileInfo) :
    ((addToCategory r f).txt = r.txt ∨
      (addToCategory r f).txt
        = ⟨wrap64 (r.txt.count + 1), wrap64 (r.txt.bytes + f.size)⟩) ∧
    ((addToCategory r f).images = r.images ∨
      (addToCategory r f).images
        = ⟨wrap64 (r.images.count + 1), wrap64 (r.images.bytes + f.size)⟩) ∧
    ((addToCategory r f).exe = r.exe ∨
      (addToCategory r f).exe
        = ⟨wrap64 (r.exe.count + 1), wrap64 (r.exe.bytes + f.size)⟩) ∧
    ((addToCategory r f).other = r.other ∨
      (addToCategory r f).other
        = ⟨wrap64 (r.other.count + 1), wrap64 (r.other.bytes + f.size)⟩) := by
  by_cases c1 : f.extension = extTxt
  · rw [addToCategory_txt r f c1]
    exact ⟨Or.inr rfl, Or.inl rfl, Or.inl rfl, Or.inl rfl⟩
  · by_cases c2 : isImageExt f.extension = true
    · rw [addToCategory_images r f c1 c2]
      exact ⟨Or.inl rfl, Or.inr rfl, Or.inl rfl, Or.inl rfl⟩
    · have c2f : isImageExt f.extension = false := by simpa using c2
      by_cases c3 : f.extension = extExe
      · rw [addToCategory_exe r f c2f c3]
        exact ⟨Or.inl rfl, Or.inl rfl, Or.inr rfl, Or.inl rfl⟩
      · rw [addToCategory_other r f c1 c2f c3]
        exact ⟨Or.inl rfl, Or.inl rfl, Or.inl rfl, Or.inr rfl⟩

theorem loopBody_buckets (s : LoopState) (e : DirEntry) :
    ((loopBody s e).r.txt = s.r.txt ∨
      (loopBody s e).r.txt
        = ⟨wrap64 (s.r.txt.count + 1), wrap64 (s.r.txt.bytes + wrap64 e.fileSize)⟩) ∧
    ((loopBody s e).r.images = s.r.images ∨
      (loopBody s e).r.images
        = ⟨wrap64 (s.r.images.count + 1), wrap64 (s.r.images.bytes + wrap64 e.fileSize)⟩) ∧
    ((loopBody s e).r.exe = s.r.exe ∨
      (loopBody s e).r.exe
        = ⟨wrap64 (s.r.exe.count + 1), wrap64 (s.r.exe.bytes + wrap64 e.fileSize)⟩) ∧
    ((loopBody s e).r.other = s.r.other ∨
      (loopBody s e).r.other
        = ⟨wrap64 (s.r.other.count + 1), wrap64 (s.r.other.bytes + wrap64 e.fileSize)⟩) := by
  unfold loopBody
  split_ifs
  all_goals first
    | exact ⟨Or.inl rfl, Or.inl rfl, Or.inl rfl, Or.inl rfl⟩
    | exact addToCategory_buckets _ _

theorem stats_le_of_bump (old new : CategoryStats) (size : Nat)
    (h : new = old ∨ new = ⟨wrap64 (old.count + 1), wrap64 (old.bytes + wrap64 size)⟩) :
    (old.count + 1 < 2 ^ 64 → old.count ≤ new.count) ∧
    (old.bytes + size < 2 ^ 64 → old.bytes ≤ new.bytes) := by
  simp only [two_pow_64]
  rcases h with h | h
  · rw [h]; exact ⟨fun _ => Nat.le_refl _, fun _ => Nat.le_refl _⟩
  · rw [h]
    simp only [wrap64_eq]
    constructor
    · intro hc; omega
    · intro hb; omega

/-! ## C18: the aggregates and the filters -/

theorem length_filter_mod (fs : List FileInfo) (p : FileInfo → Bool)
    (h : fs.length < 2 ^ 64) : (fs.filter p).length % 2 ^ 64 = (fs.filter p).length :=
  Nat.mod_eq_of_lt (Nat.lt_of_le_of_lt (List.length_filter_le p fs) h)

theorem resultAfter_default_agrees (b : Bool) (fs : List FileInfo) (k : Nat)
    (hsize : fs.length < 2 ^ 64) :
    (resultAfter { ScanResult.default with inputPathValid := b } fs k).files = fs ∧
    (resultAfter { ScanResult.default with inputPathValid := b } fs k).totalFiles
      = fs.length ∧
    (resultAfter { ScanResult.default with inputPathValid := b } fs k).txt
      = ⟨(filterTextFiles fs).length,
          ((filterTextFiles fs).map FileInfo.size).sum % 2 ^ 64⟩ ∧
    (resultAfter { ScanResult.default with inputPathValid := b } fs k).images
      = ⟨(filterImageFiles fs).length,
          ((filterImageFiles fs).map FileInfo.size).sum % 2 ^ 64⟩ ∧
    (resultAfter { ScanResult.default with inputPathValid := b } fs k).exe
      = ⟨(filterExeFiles fs).length,
          ((filterExeFiles fs).map FileInfo.size).sum % 2 ^ 64⟩ ∧
    (resultAfter { ScanResult.default with inputPathValid := b } fs k).other
      = ⟨(filterOtherFiles fs).length,
          ((filterOtherFiles fs).map FileInfo.size).sum % 2 ^ 64⟩ := by
  rw [filterTextFiles_eq, filterImageFiles_eq, filterExeFiles_eq, filterOtherFiles_eq]
  refine ⟨?_, ?_, ?_, ?_, ?_, ?_⟩
  · simp [resultAfter, ScanResult.default]
  · show (0 + fs.length) % 2 ^ 64 = fs.length
    rw [Nat.zero_add, Nat.mod_eq_of_lt hsize]
  · show bucketAfter ⟨0, 0⟩ _ fs = _
    simp only [bucketAfter, Nat.zero_add, length_filter_mod fs _ hsize]
  · show bucketAfter ⟨0, 0⟩ _ fs = _
    simp only [bucketAfter, Nat.zero_add, length_filter_mod fs _ hsize]
  · show bucketAfter ⟨0, 0⟩ _ fs = _
    simp only [bucketAfter, Nat.zero_add, length_filter_mod fs _ hsize]
  · show bucketAfter ⟨0, 0⟩ _ fs = _
    simp only [bucketAfter, Nat.zero_add, length_filter_mod fs _ hsize]
    rfl

/-- Every result the scan returns is a closed form over the default result. -/
theorem scan_result_closed_form (w : FsWorld) (r : ScanResult)
    (h : scanDirectoryRecursive w = .ok r) :
    ∃ (b : Bool) (fs : List FileInfo) (k : Nat),
      r = resultAfter { ScanResult.default with inputPathValid := b } fs k := by
  rcases scanDirectoryRecursive_cases w r h with h | ⟨_, _, h⟩
  · exact ⟨_, [], 0, by rw [h, resultAfter_nil _ (inRange_default _)]⟩
  · exact ⟨true, _, _, by rw [h, scanLoop_eq_resultAfter _ _ (inRange_default true)]⟩

/-- C18: for every `ScanResult` that `scanDirectoryRecursive` returns (its
`files` vector has fewer than `2^64` elements, as every `std::vector` has),
`totalFiles` is the number of `files`, and for each bucket the count is the
length of the matching filter applied to `files` and the bytes are the sum
modulo `2^64` of the sizes in that filter result: `txt` with
`filterTextFiles`, `images` with `filterImageFiles`, `exe` with
`filterExeFiles`, `other` with `filterOtherFiles`. -/
theorem aggregates_agree_with_filters (w : FsWorld) (r : ScanResult)
    (h : scanDirectoryRecursive w = .ok r) (hsize : r.files.length < 2 ^ 64) :
    r.totalFiles = r.files.length ∧
    r.txt.count = (filterTextFiles r.files).length ∧
    r.txt.bytes = ((filterTextFiles r.files).map FileInfo.size).sum % 2 ^ 64 ∧
    r.images.count = (filterImageFiles r.files).length ∧
    r.images.bytes = ((filterImageFiles r.files).map FileInfo.size).sum % 2 ^ 64 ∧
    r.exe.count = (filterExeFiles r.files).length ∧
    r.exe.bytes = ((filterExeFiles r.files).map FileInfo.size).sum % 2 ^ 64 ∧
    r.other.count = (filterOtherFiles r.files).length ∧
    r.other.bytes = ((filterOtherFiles r.files).map FileInfo.size).sum % 2 ^ 64 := by
  obtain ⟨b, fs, k, hr⟩ := scan_result_closed_form w r h
  have hfiles : r.files = fs := by
    rw [hr]; simp [resultAfter, ScanResult.default]
  rw [hfiles] at hsize ⊢
  obtain ⟨_, h2, h3, h4, h5, h6⟩ := resultAfter_default_agrees b fs k hsize
  rw [← hr] at h2 h3 h4 h5 h6
  rw [h2, h3, h4, h5, h6]
  exact ⟨rfl, rfl, rfl, rfl, rfl, rfl, rfl, rfl, rfl⟩

/-- C18 at the sample filesystem. -/
theorem aggregates_agree_with_filters_witness :
    scanDirectoryRecursive sampleWorld = .ok sampleResult ∧
    sampleResult.files.length < 2 ^ 64 ∧
    sampleResult.totalFiles = sampleResult.files.length ∧
    sampleResult.txt.count = (filterTextFiles sampleResult.files).length ∧
    sampleResult.txt.bytes
      = ((filterTextFiles sampleResult.files).map FileInfo.size).sum % 2 ^ 64 ∧
    sampleResult.images.count = (filterImageFiles sampleResult.files).length ∧
    sampleResult.images.bytes
      = ((filterImageFiles sampleResult.files).map FileInfo.size).sum % 2 ^ 64 ∧
    sampleResult.exe.count = (filterExeFiles sampleResult.files).length ∧
    sampleResult.exe.bytes
      = ((filterExeFiles sampleResult.files).map FileInfo.size).sum % 2 ^ 64 ∧
    sampleResult.other.count = (filterOtherFiles sampleResult.files).length ∧
    sampleResult.other.bytes
      = ((filterOtherFiles sampleResult.files).map FileInfo.size).sum % 2 ^ 64 :=
  ⟨rfl, by decide,
    aggregates_agree_with_filters sampleWorld sampleResult rfl (by decide)⟩

/-! ## C19: `ec` at the top of the loop body, and `skippedEntries` -/

theorem scanLoop_loopStart (es : List DirEntry) :
    scanLoop loopStart es =
      { r := resultAfter { ScanResult.default with inputPathValid := true }
               (recordsOf es) (es.filter isSizeFailure).length,
        ec := false } :=
  scanLoop_eq_resultAfter es _ (inRange_default true)

/-- C19: in a scan of a valid root whose listing starts, `ec` is clear
whenever the loop body is entered (before each entry and after the last), so
the branch `if (ec)` at its top is not taken; the `skippedEntries` returned
are the number (as a `std::uint64_t`, and exactly when that number is below
`2^64`) of visited entries for which `is_regular_file(ec)` answered true and
`file_size(ec)` set `ec`; an entry for which `is_regular_file(ec)` answers
false, as it does for an entry that is not a regular file and when the type
check fails, leaves `skippedEntries` unchanged. -/
theorem skipped_entries_are_failed_size_queries (w : FsWorld) (r : ScanResult)
    (hroot : w.rootExists = true) (hdir : w.rootIsDirectory = true)
    (hsetup : w.iterSetupError = false) (h : scanDirectoryRecursive w = .ok r) :
    (∀ pre post : List DirEntry, w.entries = pre ++ post →
      (scanLoop loopStart pre).ec = false) ∧
    r.skippedEntries
      = (w.entries.filter (fun e => e.isRegularFile && e.sizeError)).length % 2 ^ 64 ∧
    ((w.entries.filter (fun e => e.isRegularFile && e.sizeError)).length < 2 ^ 64 →
      r.skippedEntries
        = (w.entries.filter (fun e => e.isRegularFile && e.sizeError)).length) ∧
    (∀ (pre post : List DirEntry) (e : DirEntry), w.entries = pre ++ e :: post →
      e.isRegularFile = false →
      (loopBody (scanLoop loopStart pre) e).r.skippedEntries
        = (scanLoop loopStart pre).r.skippedEntries) := by
  have hv : (w.rootExists && w.rootIsDirectory) = true := by simp [hroot, hdir]
  have hr := scan_valid_eq w hv hsetup r h
  have hskip : r.skippedEntries
      = (w.entries.filter (fun e => e.isRegularFile && e.sizeError)).length % 2 ^ 64 := by
    rw [hr]
    show (0 + (w.entries.filter isSizeFailure).length) % 2 ^ 64 = _
    rw [Nat.zero_add]
    rfl
  refine ⟨?_, hskip, ?_, ?_⟩
  · intro pre post _
    rw [scanLoop_loopStart]
  · intro hlt
    rw [hskip, Nat.mod_eq_of_lt hlt]
  · intro pre post e _ hreg
    rw [scanLoop_loopStart, loopBody_of_not_regular _ e hreg]

/-- C19 at the sample filesystem: one entry has a failing size query. -/
theorem skipped_entries_are_failed_size_queries_witness :
    scanDirectoryRecursive sampleWorld = .ok sampleResult ∧
    (sampleWorld.entries.filter (fun e => e.isRegularFile && e.sizeError)).length = 1 ∧
    sampleResult.skippedEntries
      = (sampleWorld.entries.filter (fun e => e.isRegularFile && e.sizeError)).length
          % 2 ^ 64 :=
  ⟨rfl, by decide,
    (skipped_entries_are_failed_size_queries sampleWorld sampleResult rfl rfl rfl rfl).2.1⟩

/-! ## C20: the discovery order -/

theorem recordsOf_perm (es es2 : List DirEntry) (h : es.Perm es2) :
    (recordsOf es).Perm (recordsOf es2) :=
  (h.filter isCounted).map recordOf

theorem resultAfter_perm (r : ScanResult) (fs gs : List FileInfo) (k : Nat)
    (h : fs.Perm gs) :
    (resultAfter r gs k).txt = (resultAfter r fs k).txt ∧
    (resultAfter r gs k).images = (resultAfter r fs k).images ∧
    (resultAfter r gs k).exe = (resultAfter r fs k).exe ∧
    (resultAfter r gs k).other = (resultAfter r fs k).other ∧
    (resultAfter r gs k).totalFiles = (resultAfter r fs k).totalFiles ∧
    (resultAfter r gs k).totalBytes = (resultAfter r fs k).totalBytes ∧
    (resultAfter r gs k).skippedEntries = (resultAfter r fs k).skippedEntries ∧
    (resultAfter r gs k).inputPathValid = (resultAfter r fs k).inputPathValid ∧
    ((resultAfter r gs k).files).Perm (resultAfter r fs k).files := by
  refine ⟨bucketAfter_perm _ _ _ _ h.symm, bucketAfter_perm _ _ _ _ h.symm,
    bucketAfter_perm _ _ _ _ h.symm, bucketAfter_perm _ _ _ _ h.symm, ?_, ?_, rfl, rfl, ?_⟩
  · show (r.totalFiles + gs.length) % 2 ^ 64 = (r.totalFiles + fs.length) % 2 ^ 64
    rw [h.length_eq]
  · show (r.totalBytes + (gs.map FileInfo.size).sum) % 2 ^ 64
        = (r.totalBytes + (fs.map FileInfo.size).sum) % 2 ^ 64
    rw [(h.map FileInfo.size).sum_eq]
  · exact (h.symm.append_left r.files)

theorem scan_returns_of_no_throw (w : FsWorld)
    (hv : (w.rootExists && w.rootIsDirectory) = true) (hs : w.iterSetupError = false)
    (ha : w.advanceThrows = false ∨ w.entries = []) :
    scanDirectoryRecursive w =
      .ok (resultAfter { ScanResult.default with inputPathValid := true }
            (recordsOf w.entries) (w.entries.filter isSizeFailure).length) := by
  rcases ha with ha | ha
  · exact scan_valid_returns w hv hs ha
  · unfold scanDirectoryRecursive
    simp only [hv, hs, ha, Bool.not_true, Bool.false_eq_true, if_false, List.isEmpty_nil,
      Bool.and_false]
    rw [scanLoop_eq_resultAfter _ _ (inRange_default true)]

/-- C20: let `es` be a permutation of the entries a filesystem lists. If the
scan of the filesystem returns a result, so does the scan of the same
filesystem listing `es` instead, and the two results have the same four
buckets (counts and bytes), the same `totalFiles`, `totalBytes`,
`skippedEntries` and `inputPathValid`; the `files` of the one are a permutation
of the `files` of the other, namely, when the loop runs, the records of the
counted entries in the order of the respective listing. -/
theorem scan_is_independent_of_discovery_order (w : FsWorld) (es : List DirEntry)
    (hperm : w.entries.Perm es) (r : ScanResult)
    (h : scanDirectoryRecursive w = .ok r) :
    ∃ r2 : ScanResult,
      scanDirectoryRecursive { w with entries := es } = .ok r2 ∧
      r2.txt = r.txt ∧ r2.images = r.images ∧ r2.exe = r.exe ∧ r2.other = r.other ∧
      r2.totalFiles = r.totalFiles ∧ r2.totalBytes = r.totalBytes ∧
      r2.skippedEntries = r.skippedEntries ∧ r2.inputPathValid = r.inputPathValid ∧
      r2.files.Perm r.files ∧
      (w.rootExists = true → w.rootIsDirectory = true → w.iterSetupError = false →
        r.files =
          (w.entries.filter (fun e => e.isRegularFile && !e.sizeError)).map
            (fun e => ⟨e.path, e.fileSize % 2 ^ 64, normalizeExtension e.extension⟩) ∧
        r2.files =
          (es.filter (fun e => e.isRegularFile && !e.sizeError)).map
            (fun e => ⟨e.path, e.fileSize % 2 ^ 64, normalizeExtension e.extension⟩)) := by
  by_cases hv : (w.rootExists && w.rootIsDirectory) = true
  · by_cases hst : w.iterSetupError = true
    swap
    · -- the loop runs
      have hs : w.iterSetupError = false := by simpa using hst
      have ha : w.advanceThrows = false ∨ w.entries = [] := by
        cases hthrow : w.advanceThrows
        · exact Or.inl rfl
        · right
          by_contra hne
          rw [scan_throws_of_advance_failure w hv hs hthrow hne] at h
          exact Except.noConfusion h
      have ha2 : w.advanceThrows = false ∨ es = [] := by
        rcases ha with ha | ha
        · exact Or.inl ha
        · right
          rw [ha] at hperm
          exact hperm.nil_eq.symm
      have hr := scan_valid_eq w hv hs r h
      have h2 := scan_returns_of_no_throw { w with entries := es } hv hs ha2
      have hk : (es.filter isSizeFailure).length = (w.entries.filter isSizeFailure).length :=
        (hperm.filter isSizeFailure).length_eq.symm
      obtain ⟨p1, p2, p3, p4, p5, p6, p7, p8, p9⟩ :=
        resultAfter_perm { ScanResult.default with inputPathValid := true }
          (recordsOf w.entries) (recordsOf es) (w.entries.filter isSizeFailure).length
          (recordsOf_perm _ _ hperm)
      refine ⟨_, h2, ?_, ?_, ?_, ?_, ?_, ?_, ?_, ?_, ?_, ?_⟩
      · rw [hr]; simp only [hk]; exact p1
      · rw [hr]; simp only [hk]; exact p2
      · rw [hr]; simp only [hk]; exact p3
      · rw [hr]; simp only [hk]; exact p4
      · rw [hr]; simp only [hk]; exact p5
      · rw [hr]; simp only [hk]; exact p6
      · rw [hr]; simp only [hk]; exact p7
      · rw [hr]; exact p8
      · rw [hr]; simp only [hk]; exact p9
      · intro _ _ _
        constructor
        · rw [hr]
          show [] ++ recordsOf w.entries = _
          rfl
        · show [] ++ recordsOf es = _
          rfl
    · -- the listing cannot be set up
      have hs : w.iterSetupError = true := hst
      have e1 : scanDirectoryRecursive w
          = .ok { ScanResult.default with inputPathValid := true } := by
        simp [scanDirectoryRecursive, hv, hs]
      have e2 : scanDirectoryRecursive { w with entries := es }
          = .ok { ScanResult.default with inputPathValid := true } := by
        simp [scanDirectoryRecursive, hv, hs]
      rw [e1] at h
      injection h with h
      refine ⟨_, e2, ?_⟩
      rw [← h]
      refine ⟨rfl, rfl, rfl, rfl, rfl, rfl, rfl, rfl, List.Perm.refl _, ?_⟩
      intro _ _ hs2
      rw [hs] at hs2
      exact Bool.noConfusion hs2
  · -- the root is not valid
    have hvf : (w.rootExists && w.rootIsDirectory) = false := by simpa using hv
    have e1 : scanDirectoryRecursive w
        = .ok { ScanResult.default with inputPathValid := false } := by
      simp [scanDirectoryRecursive, hvf]
    have e2 : scanDirectoryRecursive { w with entries := es }
        = .ok { ScanResult.default with inputPathValid := false } := by
      simp [scanDirectoryRecursive, hvf]
    rw [e1] at h
    injection h with h
    refine ⟨_, e2, ?_⟩
    rw [← h]
    refine ⟨rfl, rfl, rfl, rfl, rfl, rfl, rfl, rfl, List.Perm.refl _, ?_⟩
    intro h1 h2 _
    rw [h1, h2] at hvf
    exact Bool.noConfusion hvf

/-- C20 at the sample filesystem and a reordering of its six entries. -/
theorem scan_is_independent_of_discovery_order_witness :
    sampleWorld.entries.Perm sampleWorldReordered.entries ∧
    scanDirectoryRecursive sampleWorld = .ok sampleResult ∧
    ∃ r2 : ScanResult,
      scanDirectoryRecursive { sampleWorld with entries := sampleWorldReordered.entries }
        = .ok r2 ∧
      r2.txt = sampleResult.txt ∧ r2.images = sampleResult.images ∧
      r2.exe = sampleResult.exe ∧ r2.other = sampleResult.other ∧
      r2.totalFiles = sampleResult.totalFiles ∧ r2.totalBytes = sampleResult.totalBytes ∧
      r2.skippedEntries = sampleResult.skippedEntries ∧
      r2.inputPathValid = sampleResult.inputPathValid ∧
      r2.files.Perm sampleResult.files ∧
      (sampleWorld.rootExists = true → sampleWorld.rootIsDirectory = true →
        sampleWorld.iterSetupError = false →
        sampleResult.files =
          (sampleWorld.entries.filter (fun e => e.isRegularFile && !e.sizeError)).map
            (fun e => ⟨e.path, e.fileSize % 2 ^ 64, normalizeExtension e.extension⟩) ∧
        r2.files =
          (sampleWorldReordered.entries.filter
              (fun e => e.isRegularFile && !e.sizeError)).map
            (fun e => ⟨e.path, e.fileSize % 2 ^ 64, normalizeExtension e.extension⟩)) :=
  ⟨by decide, rfl,
    scan_is_independent_of_discovery_order sampleWorld sampleWorldReordered.entries
      (by decide) sampleResult rfl⟩

/-! ## C21: the loop of `DZ_7.cpp` and the loop of the library -/

theorem normalizeExtensionDZ7_eq (ext : List Nat) :
    normalizeExtensionDZ7 ext = normalizeExtension ext := rfl

theorem isImageExtDZ7_eq (ext : List Nat) : isImageExtDZ7 ext = isImageExt ext := rfl

/-- One run of the body of `DZ_7.cpp` is one run of the body of the library. -/
theorem asLoopState_loopBodyDZ7 (s : LocalsDZ7) (e : DirEntry) :
    asLoopState (loopBodyDZ7 s e) = loopBody (asLoopState s) e := by
  unfold loopBodyDZ7 loopBody
  simp only [normalizeExtensionDZ7_eq, isImageExtDZ7_eq]
  by_cases h1 : s.ec = true
  · simp [asLoopState, h1]
  · by_cases h2 : e.isRegularFile = true
    · by_cases h3 : e.sizeError = true
      · simp [asLoopState, h1, h2, h3]
      · by_cases c1 : normalizeExtension e.extension = extTxt
        · simp [asLoopState, h1, h2, h3, addToCategory, c1]
        · by_cases c2 : isImageExt (normalizeExtension e.extension) = true
          · simp [asLoopState, h1, h2, h3, addToCategory, c1, c2]
          · by_cases c3 : normalizeExtension e.extension = extExe
            · simp [asLoopState, h1, h2, h3, addToCategory, c3, isImageExt_extExe,
                extExe_ne_extTxt]
            · simp [asLoopState, h1, h2, h3, addToCategory, c1, c2, c3]
    · simp [asLoopState, h1, h2]

theorem asLoopState_scanLoopDZ7 (es : List DirEntry) (s : LocalsDZ7) :
    asLoopState (scanLoopDZ7 s es) = scanLoop (asLoopState s) es := by
  induction es generalizing s with
  | nil => rfl
  | cons e rest ih =>
    show asLoopState (scanLoopDZ7 (loopBodyDZ7 s e) rest)
      = scanLoop (loopBody (asLoopState s) e) rest
    rw [ih, asLoopState_loopBodyDZ7]

theorem asLoopState_entry : asLoopState localsAtLoopEntryDZ7 = loopStart := rfl

theorem scanLoopDZ7_fields (es : List DirEntry) :
    (scanLoopDZ7 localsAtLoopEntryDZ7 es).files = (scanLoop loopStart es).r.files ∧
    (scanLoopDZ7 localsAtLoopEntryDZ7 es).txt = (scanLoop loopStart es).r.txt ∧
    (scanLoopDZ7 localsAtLoopEntryDZ7 es).images = (scanLoop loopStart es).r.images ∧
    (scanLoopDZ7 localsAtLoopEntryDZ7 es).exe = (scanLoop loopStart es).r.exe ∧
    (scanLoopDZ7 localsAtLoopEntryDZ7 es).other = (scanLoop loopStart es).r.other ∧
    (scanLoopDZ7 localsAtLoopEntryDZ7 es).totalFiles = (scanLoop loopStart es).r.totalFiles ∧
    (scanLoopDZ7 localsAtLoopEntryDZ7 es).totalBytes = (scanLoop loopStart es).r.totalBytes ∧
    (scanLoopDZ7 localsAtLoopEntryDZ7 es).skippedEntries
      = (scanLoop loopStart es).r.skippedEntries := by
  have h := asLoopState_scanLoopDZ7 es localsAtLoopEntryDZ7
  rw [asLoopState_entry] at h
  rw [← h]
  exact ⟨rfl, rfl, rfl, rfl, rfl, rfl, rfl, rfl⟩

/-- C21: for every sequence of entries, with whatever answers to the queries
made on them, the scan loop inlined in `main` of `DZ_7.cpp` and the loop of
`scanDirectoryRecursive` with `addToCategory`, both started as the programs
start them, end with the same `files`, the same four buckets and the same
`totalFiles`, `totalBytes` and `skippedEntries`. For a root that exists and is
a directory and whose listing starts, either both programs are left by the
exception of a failing advance, or `scanDirectoryRecursive` returns a result
and `main` of `DZ_7.cpp` ends its loop with locals equal to it field by field. -/
theorem refactoring_preserves_the_scan (argc : Nat) (w : FsWorld) :
    (∀ es : List DirEntry,
      (scanLoopDZ7 localsAtLoopEntryDZ7 es).files = (scanLoop loopStart es).r.files ∧
      (scanLoopDZ7 localsAtLoopEntryDZ7 es).txt = (scanLoop loopStart es).r.txt ∧
      (scanLoopDZ7 localsAtLoopEntryDZ7 es).images = (scanLoop loopStart es).r.images ∧
      (scanLoopDZ7 localsAtLoopEntryDZ7 es).exe = (scanLoop loopStart es).r.exe ∧
      (scanLoopDZ7 localsAtLoopEntryDZ7 es).other = (scanLoop loopStart es).r.other ∧
      (scanLoopDZ7 localsAtLoopEntryDZ7 es).totalFiles
        = (scanLoop loopStart es).r.totalFiles ∧
      (scanLoopDZ7 localsAtLoopEntryDZ7 es).totalBytes
        = (scanLoop loopStart es).r.totalBytes ∧
      (scanLoopDZ7 localsAtLoopEntryDZ7 es).skippedEntries
        = (scanLoop loopStart es).r.skippedEntries) ∧
    (2 ≤ argc → w.rootExists = true → w.rootIsDirectory = true →
      w.iterSetupError = false →
      (scanDirectoryRecursive w = .error ScanFailure.filesystemError ∧
        scanPhaseDZ7 argc w = ScanPhaseDZ7.uncaughtException) ∨
      (∃ (r : ScanResult) (l : LocalsDZ7),
        scanDirectoryRecursive w = .ok r ∧ scanPhaseDZ7 argc w = ScanPhaseDZ7.scanned l ∧
        l.files = r.files ∧ l.txt = r.txt ∧ l.images = r.images ∧ l.exe = r.exe ∧
        l.other = r.other ∧ l.totalFiles = r.totalFiles ∧ l.totalBytes = r.totalBytes ∧
        l.skippedEntries = r.skippedEntries)) := by
  refine ⟨scanLoopDZ7_fields, ?_⟩
  intro hargc hroot hdir hsetup
  have hnot : ¬ argc < 2 := by omega
  have hd : scanDirectoryRecursive w =
      if (w.advanceThrows && !w.entries.isEmpty) = true then
        .error ScanFailure.filesystemError
      else .ok (scanLoop loopStart w.entries).r := by
    simp [scanDirectoryRecursive, hroot, hdir, hsetup, loopStart]
  have h7 : scanPhaseDZ7 argc w =
      if (w.advanceThrows && !w.entries.isEmpty) = true then
        ScanPhaseDZ7.uncaughtException
      else ScanPhaseDZ7.scanned (scanLoopDZ7 localsAtLoopEntryDZ7 w.entries) := by
    simp [scanPhaseDZ7, hnot, hroot, hdir, hsetup, localsAtLoopEntryDZ7]
  by_cases hthrow : (w.advanceThrows && !w.entries.isEmpty) = true
  · left
    rw [hd, h7, if_pos hthrow, if_pos hthrow]
    exact ⟨rfl, rfl⟩
  · right
    rw [hd, h7, if_neg hthrow, if_neg hthrow]
    exact ⟨_, _, rfl, rfl, scanLoopDZ7_fields w.entries⟩

/-- C21 at the sample filesystem: both programs end the scan with the files
and counters of `sampleResult`. -/
theorem refactoring_preserves_the_scan_witness :
    scanDirectoryRecursive sampleWorld = .ok sampleResult ∧
    (∃ l : LocalsDZ7, scanPhaseDZ7 2 sampleWorld = ScanPhaseDZ7.scanned l ∧
      l.files = sampleResult.files ∧ l.txt = ⟨1, 10⟩ ∧ l.images = ⟨1, 2048⟩ ∧
      l.exe = ⟨1, 5⟩ ∧ l.other = ⟨1, 7⟩ ∧ l.totalFiles = 4 ∧ l.totalBytes = 2070 ∧
      l.skippedEntries = 1) ∧
    (scanLoopDZ7 localsAtLoopEntryDZ7 sampleWorld.entries).files
      = (scanLoop loopStart sampleWorld.entries).r.files :=
  ⟨rfl, ⟨_, rfl, by decide, by decide, by decide, by decide, by decide, by decide,
    by decide, by decide⟩,
    ((refactoring_preserves_the_scan 2 sampleWorld).1 sampleWorld.entries).1⟩

/-! ## C7: an invalid root -/

theorem invalid_answers_iff (root : RootFacts) :
    (fsExists root = false ∨ fsIsDirectory root = false) ↔
      (root.kind = RootKind.missing ∨ root.kind = RootKind.otherFile ∨
        root.existsQueryFails = true ∨ root.isDirectoryQueryFails = true) := by
  obtain ⟨kind, f1, f2⟩ := root
  cases kind <;> cases f1 <;> cases f2 <;> simp [fsExists, fsIsDirectory]

/-- C7 fails as stated: for a root that exists and is a directory but whose
status cannot be read, `fs::exists(root, ec)` returns false, line 54 does not
look at `ec`, and `scanDirectoryRecursive` returns `inputPathValid == false`;
so the flag is not false only for roots that do not exist or are not
directories. -/
theorem scan_unreadable_directory_is_invalid :
    unreadableDirectoryRoot.kind = RootKind.directory ∧
    scanDirectoryRecursive (observedWorld unreadableDirectoryRoot false [] false)
      = .ok { files := [], txt := ⟨0, 0⟩, images := ⟨0, 0⟩, exe := ⟨0, 0⟩, other := ⟨0, 0⟩,
              totalFiles := 0, totalBytes := 0, skippedEntries := 0,
              inputPathValid := false } ∧
    ¬ (∀ (root : RootFacts) (setup : Bool) (es : List DirEntry) (adv : Bool)
        (r : ScanResult),
        scanDirectoryRecursive (observedWorld root setup es adv) = .ok r →
        (r.inputPathValid = false ↔
          (root.kind = RootKind.missing ∨ root.kind = RootKind.otherFile))) := by
  refine ⟨rfl, rfl, ?_⟩
  intro h
  have h1 := (h unreadableDirectoryRoot false [] false _ rfl).mp rfl
  rcases h1 with h1 | h1 <;> exact absurd h1 (by decide)

/-- C7 as amended: a `ScanResult` returned by `scanDirectoryRecursive` has
`inputPathValid == false` if and only if the root does not exist, or is not a
directory, or its status cannot be read by `fs::exists(root, ec)` or by
`fs::is_directory(root, ec)`; and in each of these cases the call returns
(nothing is thrown) a result with `files` empty and `txt`, `images`, `exe`,
`other`, `totalFiles`, `totalBytes` and `skippedEntries` all zero. -/
theorem scan_invalid_or_unreadable_root (root : RootFacts) (setup : Bool)
    (es : List DirEntry) (adv : Bool) :
    (∀ r : ScanResult, scanDirectoryRecursive (observedWorld root setup es adv) = .ok r →
      (r.inputPathValid = false ↔
        (root.kind = RootKind.missing ∨ root.kind = RootKind.otherFile ∨
          root.existsQueryFails = true ∨ root.isDirectoryQueryFails = true))) ∧
    ((root.kind = RootKind.missing ∨ root.kind = RootKind.otherFile ∨
        root.existsQueryFails = true ∨ root.isDirectoryQueryFails = true) →
      scanDirectoryRecursive (observedWorld root setup es adv) =
        .ok { files := [], txt := ⟨0, 0⟩, images := ⟨0, 0⟩, exe := ⟨0, 0⟩, other := ⟨0, 0⟩,
              totalFiles := 0, totalBytes := 0, skippedEntries := 0,
              inputPathValid := false }) := by
  have hw := scan_invalid_root (observedWorld root setup es adv)
  constructor
  · intro r hr
    rw [hw.1 r hr]
    exact invalid_answers_iff root
  · intro h
    exact hw.2 ((invalid_answers_iff root).mpr h)

/-- C7 as amended, at three roots: a missing root and an existing directory
with an unreadable status are reported invalid with an empty result, a
readable directory that lists `a.TXT` is reported valid. -/
theorem scan_invalid_or_unreadable_root_witness :
    scanDirectoryRecursive
        (observedWorld ⟨RootKind.missing, false, false⟩ false [] false)
      = .ok { files := [], txt := ⟨0, 0⟩, images := ⟨0, 0⟩, exe := ⟨0, 0⟩, other := ⟨0, 0⟩,
              totalFiles := 0, totalBytes := 0, skippedEntries := 0,
              inputPathValid := false } ∧
    scanDirectoryRecursive (observedWorld unreadableDirectoryRoot false [] false)
      = .ok { files := [], txt := ⟨0, 0⟩, images := ⟨0, 0⟩, exe := ⟨0, 0⟩, other := ⟨0, 0⟩,
              totalFiles := 0, totalBytes := 0, skippedEntries := 0,
              inputPathValid := false } ∧
    (∀ r : ScanResult,
      scanDirectoryRecursive
          (observedWorld readableDirectoryRoot false [regularFileEntry [114] nameA 10] false)
        = .ok r → r.inputPathValid ≠ false) :=
  ⟨(scan_invalid_or_unreadable_root ⟨RootKind.missing, false, false⟩ false [] false).2
      (Or.inl rfl),
    (scan_invalid_or_unreadable_root unreadableDirectoryRoot false [] false).2
      (Or.inr (Or.inr (Or.inl rfl))),
    fun r hr hf =>
      absurd
        (((scan_invalid_or_unreadable_root readableDirectoryRoot false
            [regularFileEntry [114] nameA 10] false).1 r hr).mp hf)
        (by decide)⟩

/-! ## C17: the buckets during a scan -/

theorem loopBody_after_entries (pre : List DirEntry) (e : DirEntry) :
    loopBody (scanLoop loopStart pre) e =
      { r := resultAfter { ScanResult.default with inputPathValid := true }
               (recordsOf pre ++ (if isCounted e then [recordOf e] else []))
               ((pre.filter isSizeFailure).length + (if isSizeFailure e then 1 else 0)),
        ec := false } := by
  rw [scanLoop_loopStart, loopBody_eq_resultAfter _ e (inRange_resultAfter _ _ _),
    resultAfter_append]

theorem bucket_count_step (p : FileInfo → Bool) (fs gs : List FileInfo)
    (h : (fs ++ gs).length < 2 ^ 64) :
    (bucketAfter ⟨0, 0⟩ p fs).count ≤ (bucketAfter ⟨0, 0⟩ p (fs ++ gs)).count := by
  have h1 : fs.length < 2 ^ 64 := by
    rw [List.length_append] at h; omega
  show (0 + (fs.filter p).length) % 2 ^ 64 ≤ (0 + ((fs ++ gs).filter p).length) % 2 ^ 64
  rw [Nat.zero_add, Nat.zero_add, length_filter_mod fs p h1, length_filter_mod (fs ++ gs) p h,
    List.filter_append, List.length_append]
  omega

theorem bucket_bytes_step (p : FileInfo → Bool) (fs : List FileInfo) (e : DirEntry) :
    (bucketAfter ⟨0, 0⟩ p (fs ++ (if isCounted e then [recordOf e] else []))).bytes
        < (bucketAfter ⟨0, 0⟩ p fs).bytes ↔
      (isCounted e = true ∧ p (recordOf e) = true ∧
        2 ^ 64 ≤ (bucketAfter ⟨0, 0⟩ p fs).bytes + e.fileSize % 2 ^ 64) := by
  rw [← bucketAfter_append]
  have hold : (bucketAfter ⟨0, 0⟩ p fs).bytes < 18446744073709551616 := by
    show (0 + ((fs.filter p).map FileInfo.size).sum) % 2 ^ 64 < _
    rw [two_pow_64]
    exact Nat.mod_lt _ (by norm_num)
  have hsz : e.fileSize % 18446744073709551616 < 18446744073709551616 :=
    Nat.mod_lt _ (by norm_num)
  generalize bucketAfter ⟨0, 0⟩ p fs = b at hold ⊢
  simp only [two_pow_64]
  by_cases hc : isCounted e = true
  · by_cases hp : p (recordOf e) = true
    · have hs : (recordOf e).size = e.fileSize % 18446744073709551616 := by
        simp [recordOf, wrap64]
      simp only [bucketAfter, hc, hp, if_true, List.filter_cons, List.filter_nil,
        List.map_cons, List.map_nil, List.sum_cons, List.sum_nil, Nat.add_zero, hs,
        true_and, two_pow_64]
      omega
    · simp only [bucketAfter, hc, hp, if_true, List.filter_cons, List.filter_nil,
        List.map_nil, List.sum_nil, Nat.add_zero, two_pow_64, Nat.mod_eq_of_lt hold,
        Bool.false_eq_true, if_false, false_and, and_false, iff_false]
      omega
  · simp only [bucketAfter, hc, List.filter_nil, List.map_nil, List.sum_nil, Nat.add_zero,
      two_pow_64, Nat.mod_eq_of_lt hold, Bool.false_eq_true, if_false, false_and, iff_false]
    omega

theorem isCounted_iff (e : DirEntry) :
    isCounted e = true ↔ (e.isRegularFile = true ∧ e.sizeError = false) := by
  cases h1 : e.isRegularFile <;> cases h2 : e.sizeError <;> simp [isCounted, h1, h2]

theorem isOtherFile_recordOf (e : DirEntry) :
    isOtherFile (recordOf e) = true ↔
      (normalizeExtension e.extension ≠ extTxt ∧
        isImageExt (normalizeExtension e.extension) = false ∧
        normalizeExtension e.extension ≠ extExe) := by
  simp [isOtherFile, recordOf, and_assoc]

/-- C17 fails as stated: the bytes of a bucket are a `std::uint64_t` sum and
wrap around. After the files `r/y.txt` and `r/z.txt` of `2^63 - 1` bytes each
the text bucket holds `2^64 - 2` bytes; processing one more entry, the file
`r/x.txt` of `2^63 - 1` bytes, brings it down to `2^63 - 3`. -/
theorem bucket_bytes_wrap_after_three_files :
    (2 : Nat) ^ 63 - 1 < 2 ^ 64 ∧
    (scanLoop loopStart
        [regularFileEntry [114] nameY (2 ^ 63 - 1),
         regularFileEntry [114] nameZ (2 ^ 63 - 1)]).r.txt.bytes = 2 ^ 64 - 2 ∧
    (loopBody
        (scanLoop loopStart
          [regularFileEntry [114] nameY (2 ^ 63 - 1),
           regularFileEntry [114] nameZ (2 ^ 63 - 1)])
        (regularFileEntry [114] nameX (2 ^ 63 - 1))).r.txt.bytes = 2 ^ 63 - 3 ∧
    ¬ (∀ (pre : List DirEntry) (e : DirEntry), e.fileSize < 2 ^ 64 →
        (scanLoop loopStart pre).r.txt.bytes
          ≤ (loopBody (scanLoop loopStart pre) e).r.txt.bytes) := by
  have h1 : (scanLoop loopStart
      [regularFileEntry [114] nameY (2 ^ 63 - 1),
       regularFileEntry [114] nameZ (2 ^ 63 - 1)]).r.txt.bytes = 2 ^ 64 - 2 := by decide
  have h2 : (loopBody
      (scanLoop loopStart
        [regularFileEntry [114] nameY (2 ^ 63 - 1),
         regularFileEntry [114] nameZ (2 ^ 63 - 1)])
      (regularFileEntry [114] nameX (2 ^ 63 - 1))).r.txt.bytes = 2 ^ 63 - 3 := by decide
  refine ⟨by norm_num, h1, h2, ?_⟩
  intro h
  have h3 := h [regularFileEntry [114] nameY (2 ^ 63 - 1),
      regularFileEntry [114] nameZ (2 ^ 63 - 1)]
    (regularFileEntry [114] nameX (2 ^ 63 - 1)) (by norm_num [regularFileEntry])
  rw [h1, h2] at h3
  norm_num at h3

/-- C17 as amended: during a scan, after any entries `pre`, processing one
more directory entry `e` never decreases the count of any of the four buckets
(the `files` vector having fewer than `2^64` elements, as every `std::vector`
has), and it decreases the bytes of a bucket exactly when `e` is a regular
file whose size was read, is classified into that bucket, and the bytes of the
bucket plus the size of the file reach `2^64`, where the `std::uint64_t` sum
wraps around; in every other case the bytes of the bucket do not decrease. -/
theorem bucket_decreases_only_by_wraparound (pre : List DirEntry) (e : DirEntry) :
    ((loopBody (scanLoop loopStart pre) e).r.files.length < 2 ^ 64 →
      (scanLoop loopStart pre).r.txt.count
        ≤ (loopBody (scanLoop loopStart pre) e).r.txt.count ∧
      (scanLoop loopStart pre).r.images.count
        ≤ (loopBody (scanLoop loopStart pre) e).r.images.count ∧
      (scanLoop loopStart pre).r.exe.count
        ≤ (loopBody (scanLoop loopStart pre) e).r.exe.count ∧
      (scanLoop loopStart pre).r.other.count
        ≤ (loopBody (scanLoop loopStart pre) e).r.other.count) ∧
    ((loopBody (scanLoop loopStart pre) e).r.txt.bytes < (scanLoop loopStart pre).r.txt.bytes ↔
      (e.isRegularFile = true ∧ e.sizeError = false ∧
        normalizeExtension e.extension = extTxt ∧
        2 ^ 64 ≤ (scanLoop loopStart pre).r.txt.bytes + e.fileSize % 2 ^ 64)) ∧
    ((loopBody (scanLoop loopStart pre) e).r.images.bytes
        < (scanLoop loopStart pre).r.images.bytes ↔
      (e.isRegularFile = true ∧ e.sizeError = false ∧
        isImageExt (normalizeExtension e.extension) = true ∧
        2 ^ 64 ≤ (scanLoop loopStart pre).r.images.bytes + e.fileSize % 2 ^ 64)) ∧
    ((loopBody (scanLoop loopStart pre) e).r.exe.bytes < (scanLoop loopStart pre).r.exe.bytes ↔
      (e.isRegularFile = true ∧ e.sizeError = false ∧
        normalizeExtension e.extension = extExe ∧
        2 ^ 64 ≤ (scanLoop loopStart pre).r.exe.bytes + e.fileSize % 2 ^ 64)) ∧
    ((loopBody (scanLoop loopStart pre) e).r.other.bytes
        < (scanLoop loopStart pre).r.other.bytes ↔
      (e.isRegularFile = true ∧ e.sizeError = false ∧
        (normalizeExtension e.extension ≠ extTxt ∧
          isImageExt (normalizeExtension e.extension) = false ∧
          normalizeExtension e.extension ≠ extExe) ∧
        2 ^ 64 ≤ (scanLoop loopStart pre).r.other.bytes + e.fileSize % 2 ^ 64)) := by
  rw [loopBody_after_entries, scanLoop_loopStart]
  refine ⟨?_, ?_, ?_, ?_, ?_⟩
  · intro hsize
    have hlen : (recordsOf pre ++ (if isCounted e then [recordOf e] else [])).length
        < 2 ^ 64 := by
      have : (resultAfter { ScanResult.default with inputPathValid := true }
          (recordsOf pre ++ (if isCounted e then [recordOf e] else []))
          ((pre.filter isSizeFailure).length + (if isSizeFailure e then 1 else 0))).files
          = recordsOf pre ++ (if isCounted e then [recordOf e] else []) := by
        simp [resultAfter, ScanResult.default]
      rw [← this]
      exact hsize
    exact ⟨bucket_count_step _ _ _ hlen, bucket_count_step _ _ _ hlen,
      bucket_count_step _ _ _ hlen, bucket_count_step _ _ _ hlen⟩
  · have h := bucket_bytes_step (fun f => decide (f.extension = extTxt)) (recordsOf pre) e
    exact h.trans
      ⟨fun ⟨a, b, c⟩ => ⟨((isCounted_iff e).mp a).1, ((isCounted_iff e).mp a).2,
          by simpa [recordOf] using b, c⟩,
        fun ⟨a1, a2, b, c⟩ => ⟨(isCounted_iff e).mpr ⟨a1, a2⟩,
          by simpa [recordOf] using b, c⟩⟩
  · have h := bucket_bytes_step (fun f => isImageExt f.extension) (recordsOf pre) e
    exact h.trans
      ⟨fun ⟨a, b, c⟩ => ⟨((isCounted_iff e).mp a).1, ((isCounted_iff e).mp a).2, b, c⟩,
        fun ⟨a1, a2, b, c⟩ => ⟨(isCounted_iff e).mpr ⟨a1, a2⟩, b, c⟩⟩
  · have h := bucket_bytes_step (fun f => decide (f.extension = extExe)) (recordsOf pre) e
    exact h.trans
      ⟨fun ⟨a, b, c⟩ => ⟨((isCounted_iff e).mp a).1, ((isCounted_iff e).mp a).2,
          by simpa [recordOf] using b, c⟩,
        fun ⟨a1, a2, b, c⟩ => ⟨(isCounted_iff e).mpr ⟨a1, a2⟩,
          by simpa [recordOf] using b, c⟩⟩
  · have h := bucket_bytes_step isOtherFile (recordsOf pre) e
    exact h.trans
      ⟨fun ⟨a, b, c⟩ => ⟨((isCounted_iff e).mp a).1, ((isCounted_iff e).mp a).2,
          (isOtherFile_recordOf e).mp b, c⟩,
        fun ⟨a1, a2, b, c⟩ => ⟨(isCounted_iff e).mpr ⟨a1, a2⟩,
          (isOtherFile_recordOf e).mpr b, c⟩⟩

/-- C17 as amended, at concrete steps: after `c.exe` the entry `a.TXT` (10
bytes) does not decrease the count or the bytes of the text bucket; after two
text files of `2^63 - 1` bytes a third one makes the bytes of the text bucket
wrap around and decrease. -/
theorem bucket_decreases_only_by_wraparound_witness :
    (scanLoop loopStart [regularFileEntry [114] nameC 5]).r.txt.count
      ≤ (loopBody (scanLoop loopStart [regularFileEntry [114] nameC 5])
          (regularFileEntry [114] nameA 10)).r.txt.count ∧
    ¬ ((loopBody (scanLoop loopStart [regularFileEntry [114] nameC 5])
          (regularFileEntry [114] nameA 10)).r.txt.bytes
        < (scanLoop loopStart [regularFileEntry [114] nameC 5]).r.txt.bytes) ∧
    (loopBody
        (scanLoop loopStart
          [regularFileEntry [114] nameY (2 ^ 63 - 1),
           regularFileEntry [114] nameZ (2 ^ 63 - 1)])
        (regularFileEntry [114] nameX (2 ^ 63 - 1))).r.txt.bytes
      < (scanLoop loopStart
          [regularFileEntry [114] nameY (2 ^ 63 - 1),
           regularFileEntry [114] nameZ (2 ^ 63 - 1)]).r.txt.bytes :=
  ⟨((bucket_decreases_only_by_wraparound [regularFileEntry [114] nameC 5]
        (regularFileEntry [114] nameA 10)).1 (by decide)).1,
    fun h =>
      absurd
        ((bucket_decreases_only_by_wraparound [regularFileEntry [114] nameC 5]
            (regularFileEntry [114] nameA 10)).2.1.mp h).2.2.2
        (by decide),
    (bucket_decreases_only_by_wraparound
        [regularFileEntry [114] nameY (2 ^ 63 - 1), regularFileEntry [114] nameZ (2 ^ 63 - 1)]
        (regularFileEntry [114] nameX (2 ^ 63 - 1))).2.1.mpr
      ⟨rfl, rfl, by decide, by decide⟩⟩

end DZ9
